import Mathlib

/-!
Verification development for the web-eid.js protocol core: the
`WebExtensionService` pending-request registry and timer state machine,
the `IntentUrl` deep-link builder, and the mobile-flow poll handling.
The definitions are shallow embeddings of the TypeScript sources;
asynchronous timer firings and bus deliveries are modelled as the
nondeterministic steps of a labelled transition system.
-/

namespace WebEid

/-! ### String helpers (JS string operations used by the service) -/

/-- Boolean suffix test on character lists, mirroring an anchored
regular-expression match `suf$` in JavaScript. -/
def endsWithL (l suf : List Char) : Bool :=
  l.drop (l.length - suf.length) == suf

/-- Boolean suffix test on strings. -/
def endsWithS (s suf : String) : Bool :=
  endsWithL s.data suf.data

/-- Boolean anchored head test on strings, mirroring `/^pat/.test(s)` and
`s.startsWith(pat)` in JavaScript. -/
def startsWithS (s pat : String) : Bool :=
  s.data.take pat.data.length == pat.data

/-- Removal of a trailing suffix from a string (the effect of
`s.replace(/suf$/, "")` when `suf` matches). -/
def stripSuffix (s suf : String) : String :=
  ⟨s.data.take (s.data.length - suf.data.length)⟩

/-- Translated from `WebExtensionService.getInitialAction`: the anchored
replace of the first of the alternatives " -success$ | -failure$ | -ack$ "
(hyphens included, spaces not) by the empty string.  The three
alternatives end in distinct characters, so the alternation is
equivalent to this test chain. -/
def getInitialAction (action : String) : String :=
  if endsWithS action "-success" then stripSuffix action "-success"
  else if endsWithS action "-failure" then stripSuffix action "-failure"
  else if endsWithS action "-ack" then stripSuffix action "-ack"
  else action

/-- The suffix classifier in `receive`:
`message.action?.match(/success$|failure$|ack$/)?.[0]`. -/
inductive ActionSuffix where
  | ackSfx
  | successSfx
  | failureSfx
  deriving DecidableEq

/-- Result of the suffix match in `receive`; the three alternatives end in
distinct characters so the chain order is immaterial. -/
def matchSuffix (action : String) : Option ActionSuffix :=
  if endsWithS action "success" then some .successSfx
  else if endsWithS action "failure" then some .failureSfx
  else if endsWithS action "ack" then some .ackSfx
  else none

/-- JS truthiness of an optional string field: `undefined` and the empty
string are falsy. -/
def truthyStr : Option String → Bool
  | none => false
  | some s => !(s == "")

/-- JS truthiness of an optional numeric field: `undefined` and `0` are
falsy. -/
def truthyNat : Option Nat → Bool
  | none => false
  | some n => !(n == 0)

/-! ### Errors and messages -/

/-- The domain error taxonomy of the library (`src/errors`). -/
inductive WebEidError where
  | actionPending
  | contextInsecure
  | actionTimeout
  | authAppNotInstalled
  | extensionUnavailable
  | protocolInsecure
  | missingParameter
  | serverRejected
  | serverTimeout
  | userCancelled
  | userPin
  | unknownErr
  deriving DecidableEq

/-- Modelled from the spec: the `Message` model class is not in the
source snapshot; this follows §3 and §6 of the spec and the fields read
by `WebExtensionService` and `IntentUrl`.  `action` is optional at
runtime (the service guards with `event.data?.action`). -/
structure Message where
  action : Option String := none
  error : Option WebEidError := none
  useAuthApp : Bool := false
  getAuthSuccessUrl : Option String := none
  getAuthChallengeUrl : Option String := none
  postAuthTokenUrl : Option String := none
  postPrepareSigningUrl : Option String := none
  postFinalizeSigningUrl : Option String := none
  applicationName : Option String := none
  actionDescription : Option String := none
  headers : Option (List (String × String)) := none
  userInteractionTimeout : Option Nat := none
  serverRequestTimeout : Option Nat := none
  lang : Option String := none
  deriving DecidableEq

/-- Modelled from the spec: `deserializeError` (in `src/utils`, absent
from the snapshot) turns a serialized error descriptor back into its
domain error kind; on our error taxonomy it is the identity. -/
def deserializeError (e : WebEidError) : WebEidError := e

/-- The outcome a pending request's promise settles with: `resolve`
receives the success message, `reject` receives either a deserialized
domain error or the raw failure message. -/
inductive Settlement where
  | success (m : Message)
  | failureErr (e : WebEidError)
  | failureRaw (m : Message)
  deriving DecidableEq

/-! ### The pending-request registry state -/

/-- One `PendingMessage` instance: the outgoing message, the promise
state (`settled`, first settlement wins, as for a JS promise), the
number of `resolve`/`reject` invocations performed on it, and the two
timer handles (armed or cleared). -/
structure Inst where
  msg : Message
  settled : Option Settlement := none
  settleCalls : Nat := 0
  ackArmed : Bool := true
  replyArmed : Bool := true
  replyDelay : Nat := 0
  deriving DecidableEq

/-- A `resolve` invocation on the promise: counted always, effective only
on an unsettled promise. -/
def resolveCall (m : Message) (p : Inst) : Inst :=
  { p with
    settleCalls := p.settleCalls + 1
    settled := match p.settled with
      | some o => some o
      | none => some (.success m) }

/-- A `reject` invocation on the promise: counted always, effective only
on an unsettled promise. -/
def rejectCall (o : Settlement) (p : Inst) : Inst :=
  { p with
    settleCalls := p.settleCalls + 1
    settled := match p.settled with
      | some o' => some o'
      | none => some o }

/-- The service state: all request instances ever created (timers and
promises outlive queue membership, being captured by closures), and the
registry `queue` holding indices into `insts`. -/
structure SysState where
  insts : List Inst
  queue : List Nat
  deriving DecidableEq

/-- The empty service state, as after the constructor runs. -/
def initState : SysState := ⟨[], []⟩

/-- Point update of an instance list at an index (out-of-range is a
no-op), used to model mutation of a captured pending object. -/
def updInsts : List Inst → Nat → (Inst → Inst) → List Inst
  | [], _, _ => []
  | p :: ps, 0, f => f p :: ps
  | p :: ps, n + 1, f => p :: updInsts ps n f

/-- The strict equality comparison `pm.message.action === action` used by
both the lookup in `getPendingMessage` and the filter in
`removeFromQueue`. -/
def matchPred (insts : List Inst) (key : Option String) (i : Nat) : Bool :=
  match insts[i]? with
  | some p => p.msg.action == key
  | none => false

/-- Translated from `getPendingMessage`:
`this.queue.find((pm) => pm.message.action === action)`, returning the
index of the first queued instance whose message action equals the key. -/
def getPendingMessage (s : SysState) (key : Option String) : Option Nat :=
  s.queue.find? (matchPred s.insts key)

/-- Translated from `removeFromQueue`: looks up the first matching
pending entry, clears its reply timer (`clearTimeout(pending?.replyTimer)`
— note the ack timer is not touched), then filters every entry with that
action out of the queue. -/
def removeFromQueue (s : SysState) (key : Option String) : SysState :=
  let s1 : SysState :=
    match getPendingMessage s key with
    | some i => { s with insts := updInsts s.insts i fun p => { p with replyArmed := false } }
    | none => s
  { s1 with queue := s1.queue.filter fun i => !(matchPred s1.insts key i) }

/-- Translated from `receive`: guard on the `web-eid:` namespace, suffix
classification, base-action recovery, registry lookup, then the three
switch branches (ack clears the ack timer; success resolves and removes;
failure rejects with the deserialized error or the raw message and
removes).  A matching message with no suffix falls through the switch. -/
def receive (s : SysState) (m : Message) : SysState :=
  match m.action with
  | none => s
  | some a =>
    if !(startsWithS a "web-eid:") then s
    else
      let suffix := matchSuffix a
      let initialAction := getInitialAction a
      match getPendingMessage s (some initialAction) with
      | none => s
      | some i =>
        match suffix with
        | some .ackSfx =>
            { s with insts := updInsts s.insts i fun p => { p with ackArmed := false } }
        | some .successSfx =>
            removeFromQueue
              { s with insts := updInsts s.insts i (resolveCall m) }
              (some initialAction)
        | some .failureSfx =>
            let rejVal : Settlement :=
              match m.error with
              | some e => .failureErr (deserializeError e)
              | none => .failureRaw m
            removeFromQueue
              { s with insts := updInsts s.insts i (rejectCall rejVal) }
              (some initialAction)
        | none => s

/-- Translated from `send`: reject with `ActionPendingError` when an
entry for the same action exists, with `ContextInsecureError` in an
insecure context; otherwise push a fresh pending entry with both timers
armed and return its index (the dispatch onto the bus or mobile flow is
modelled by separate delivery steps, the bus being asynchronous). -/
def send (s : SysState) (m : Message) (timeout : Nat) (secure : Bool) :
    SysState × Except WebEidError Nat :=
  if (getPendingMessage s m.action).isSome then
    (s, .error .actionPending)
  else if !secure then
    (s, .error .contextInsecure)
  else
    let i := s.insts.length
    (⟨s.insts ++ [{ msg := m, replyDelay := timeout }], s.queue ++ [i]⟩, .ok i)

/-- Translated from `onReplyTimeout`: reject the captured pending's
promise with `ActionTimeoutError`, then `removeFromQueue` its action. -/
def onReplyTimeout (s : SysState) (i : Nat) : SysState :=
  match s.insts[i]? with
  | none => s
  | some p =>
    removeFromQueue
      { s with insts := updInsts s.insts i (rejectCall (.failureErr .actionTimeout)) }
      p.msg.action

/-- Translated from `onAckTimeout`: reject with `AuthAppNotInstalledError`
when the request's `useAuthApp` flag was set, else
`ExtensionUnavailableError`; then `removeFromQueue` the action and clear
the captured pending's reply timer. -/
def onAckTimeout (s : SysState) (i : Nat) : SysState :=
  match s.insts[i]? with
  | none => s
  | some p =>
    let e : WebEidError :=
      if p.msg.useAuthApp then .authAppNotInstalled else .extensionUnavailable
    let s1 := removeFromQueue
      { s with insts := updInsts s.insts i (rejectCall (.failureErr e)) }
      p.msg.action
    { s1 with insts := updInsts s1.insts i fun q => { q with replyArmed := false } }

/-- The ack timer of instance `i` is armed. -/
def ackEnabled (s : SysState) (i : Nat) : Bool :=
  match s.insts[i]? with
  | some p => p.ackArmed
  | none => false

/-- The reply timer of instance `i` is armed. -/
def replyEnabled (s : SysState) (i : Nat) : Bool :=
  match s.insts[i]? with
  | some p => p.replyArmed
  | none => false

/-- A one-shot ack timer fires: it disarms itself and runs
`onAckTimeout` on the captured pending. -/
def fireAck (s : SysState) (i : Nat) : SysState :=
  onAckTimeout { s with insts := updInsts s.insts i fun p => { p with ackArmed := false } } i

/-- A one-shot reply timer fires: it disarms itself and runs
`onReplyTimeout` on the captured pending. -/
def fireReply (s : SysState) (i : Nat) : SysState :=
  onReplyTimeout { s with insts := updInsts s.insts i fun p => { p with replyArmed := false } } i

/-- One asynchronous event of the service: a `send` call, a bus message
delivery (real or synthesized), or a timer firing while armed. -/
inductive Step : SysState → SysState → Prop where
  | send (s : SysState) (m : Message) (timeout : Nat) (secure : Bool) :
      Step s (WebEid.send s m timeout secure).fst
  | deliver (s : SysState) (m : Message) :
      Step s (receive s m)
  | ackFire (s : SysState) (i : Nat) (h : ackEnabled s i = true) :
      Step s (fireAck s i)
  | replyFire (s : SysState) (i : Nat) (h : replyEnabled s i = true) :
      Step s (fireReply s i)

/-- States reachable from the freshly constructed service. -/
inductive Reachable : SysState → Prop where
  | init : Reachable initState
  | step {s s' : SysState} : Reachable s → Step s s' → Reachable s'

/-! ### Action constants and the mobile-flow poll handling -/

namespace Action

/-- Modelled from the spec: the `Action` enum is not in the snapshot;
§3 gives the closed set of operation kinds, each with four textual
variants carrying the fixed `web-eid:` namespace, and §8 shows the base
and ack spellings for authenticate. -/
def AUTHENTICATE : String := "web-eid:authenticate"

/-- Modelled from the spec: ack variant of authenticate. -/
def AUTHENTICATE_ACK : String := "web-eid:authenticate-ack"

/-- Modelled from the spec: success variant of authenticate. -/
def AUTHENTICATE_SUCCESS : String := "web-eid:authenticate-success"

/-- Modelled from the spec: failure variant of authenticate. -/
def AUTHENTICATE_FAILURE : String := "web-eid:authenticate-failure"

/-- Modelled from the spec: base sign action. -/
def SIGN : String := "web-eid:sign"

/-- Modelled from the spec: ack variant of sign. -/
def SIGN_ACK : String := "web-eid:sign-ack"

/-- Modelled from the spec: success variant of sign. -/
def SIGN_SUCCESS : String := "web-eid:sign-success"

/-- Modelled from the spec: failure variant of sign. -/
def SIGN_FAILURE : String := "web-eid:sign-failure"

/-- Modelled from the spec: base status action. -/
def STATUS : String := "web-eid:status"

/-- Modelled from the spec: ack variant of status. -/
def STATUS_ACK : String := "web-eid:status-ack"

/-- Modelled from the spec: success variant of status. -/
def STATUS_SUCCESS : String := "web-eid:status-success"

/-- Modelled from the spec: failure variant of status. -/
def STATUS_FAILURE : String := "web-eid:status-failure"

end Action

/-- Translated from `getRelevantAckAction`: switch on the message action
over the three base actions, defaulting to the status ack. -/
def getRelevantAckAction (m : Message) : String :=
  if m.action == some Action.AUTHENTICATE then Action.AUTHENTICATE_ACK
  else if m.action == some Action.SIGN then Action.SIGN_ACK
  else if m.action == some Action.STATUS then Action.STATUS_ACK
  else Action.STATUS_ACK

/-- Translated from `getRelevantSuccessAction`: switch on the message
action over the three base actions, defaulting to the status success. -/
def getRelevantSuccessAction (m : Message) : String :=
  if m.action == some Action.AUTHENTICATE then Action.AUTHENTICATE_SUCCESS
  else if m.action == some Action.SIGN then Action.SIGN_SUCCESS
  else if m.action == some Action.STATUS then Action.STATUS_SUCCESS
  else Action.STATUS_SUCCESS

/-- Translated from `getRelevantErrorAction` (mobile-flow service
variant): switch on the message action over the three base actions,
defaulting to the status failure. -/
def getRelevantErrorAction (m : Message) : String :=
  if m.action == some Action.AUTHENTICATE then Action.AUTHENTICATE_FAILURE
  else if m.action == some Action.SIGN then Action.SIGN_FAILURE
  else if m.action == some Action.STATUS then Action.STATUS_FAILURE
  else Action.STATUS_FAILURE

/-- Translated from the status switch in `publishMessage` (mobile-flow
service variant): the domain error synthesized for a non-200 poll
response status (`res.statusCode` may be absent, hitting the default). -/
def errorForStatus (status : Option Nat) : WebEidError :=
  if status == some 400 then .missingParameter
  else if status == some 403 then .serverRejected
  else if status == some 408 then .serverTimeout
  else if status == some 444 then .userCancelled
  else if status == some 449 then .userPin
  else .unknownErr

/-- Translated from the poll response handler in `publishMessage`
(mobile-flow service variant): status 200 posts the relevant success
action onto the bus; any other status posts the relevant failure action
carrying the mapped error. -/
def onPollResponse (m : Message) (status : Option Nat) : Message :=
  if status == some 200 then
    { action := some (getRelevantSuccessAction m) }
  else
    { action := some (getRelevantErrorAction m), error := some (errorForStatus status) }

/-- Translated from the poll request error handler in `publishMessage`
(mobile-flow service variant): a network failure posts the relevant
failure action carrying `ServerRejectedError`. -/
def onPollNetworkError (m : Message) : Message :=
  { action := some (getRelevantErrorAction m), error := some WebEidError.serverRejected }

/-- The outgoing GET request issued by `pollForLoginSuccess` when its
preconditions hold; the hostname/port/pathname split performed by the
external `URL` parser is kept as the raw url. -/
structure PollRequest where
  url : String
  headers : Option (List (String × String))
  timeout : Nat
  deriving DecidableEq

/-- Translated from `pollForLoginSuccess`: requires a (truthy)
`getAuthSuccessUrl`, else `MissingParameterError`; requires the https
scheme, else `ProtocolInsecureError`; otherwise issues the GET request.
An error result means no HTTP request is issued. -/
def pollForLoginSuccess (m : Message) (timeout : Nat) :
    Except WebEidError PollRequest :=
  if truthyStr m.getAuthSuccessUrl then
    let u := m.getAuthSuccessUrl.getD ""
    if !(startsWithS u "https://") then
      .error .protocolInsecure
    else
      .ok { url := u, headers := m.headers, timeout := timeout }
  else
    .error .missingParameter

/-! ### The deep-link builder (`IntentUrl`) -/

/-- Modelled from the spec: the configuration object (absent from the
snapshot) injects the handshake-timeout constant and the deep-link base
URL (§6). -/
structure Config where
  AUTH_APP_INTENT_URL_BASE : String
  EXTENSION_HANDSHAKE_TIMEOUT : Nat

/-- The deep-link field snapshot, translated from the `IntentUrl` class
fields. -/
structure IntentUrl where
  action : Option String := none
  getAuthChallengeUrl : Option String := none
  postAuthTokenUrl : Option String := none
  postPrepareSigningUrl : Option String := none
  postFinalizeSigningUrl : Option String := none
  applicationName : Option String := none
  actionDescription : Option String := none
  headers : Option (List (String × String)) := none
  userInteractionTimeout : Option Nat := none
  serverRequestTimeout : Option Nat := none
  lang : Option String := none
  deriving DecidableEq

/-- A message field copied by the `IntentUrl` constructor only when
truthy. -/
def copyIfTruthy (v : Option String) : Option String :=
  if truthyStr v then v else none

/-- A numeric message field copied by the `IntentUrl` constructor only
when truthy (`0` is falsy in JS). -/
def copyIfTruthyNat (v : Option Nat) : Option Nat :=
  if truthyNat v then v else none

/-- Translated from `IntentUrl.validate`: fails when the action is null,
or when the pair (challenge url, token post url) is incomplete and the
pair (prepare-signing url, finalize-signing url) is incomplete. -/
def validate (u : IntentUrl) : Except WebEidError IntentUrl :=
  if u.action == none
      || ((u.getAuthChallengeUrl == none || u.postAuthTokenUrl == none)
          && (u.postFinalizeSigningUrl == none || u.postPrepareSigningUrl == none)) then
    .error .missingParameter
  else
    .ok u

/-- Translated from the `IntentUrl` constructor: the action is copied
unconditionally; every optional field is copied only when truthy; then
`validate` runs. -/
def mkIntentUrl (m : Message) : Except WebEidError IntentUrl :=
  validate
    { action := m.action
      getAuthChallengeUrl := copyIfTruthy m.getAuthChallengeUrl
      postAuthTokenUrl := copyIfTruthy m.postAuthTokenUrl
      headers := m.headers
      postPrepareSigningUrl := copyIfTruthy m.postPrepareSigningUrl
      postFinalizeSigningUrl := copyIfTruthy m.postFinalizeSigningUrl
      applicationName := copyIfTruthy m.applicationName
      actionDescription := copyIfTruthy m.actionDescription
      userInteractionTimeout := copyIfTruthyNat m.userInteractionTimeout
      serverRequestTimeout := copyIfTruthyNat m.serverRequestTimeout
      lang := copyIfTruthy m.lang }

/-- Uppercase hexadecimal digit, as produced by `encodeURIComponent`. -/
def hexDigitU (n : Nat) : Char :=
  if n < 10 then Char.ofNat (48 + n) else Char.ofNat (55 + n)

/-- UTF-8 bytes of a character, for percent-encoding. -/
def utf8Bytes (c : Char) : List Nat :=
  let v := c.toNat
  if v < 128 then [v]
  else if v < 2048 then [192 + v / 64, 128 + v % 64]
  else if v < 65536 then [224 + v / 4096, 128 + (v / 64) % 64, 128 + v % 64]
  else [240 + v / 262144, 128 + (v / 4096) % 64, 128 + (v / 64) % 64, 128 + v % 64]

/-- A character `encodeURIComponent` leaves unescaped: ASCII letters,
digits, and - _ . ! ~ * ' ( ). -/
def uriUnreserved (c : Char) : Bool :=
  let v := c.toNat
  (48 ≤ v && v ≤ 57) || (65 ≤ v && v ≤ 90) || (97 ≤ v && v ≤ 122)
    || v == 45 || v == 95 || v == 46 || v == 33 || v == 126
    || v == 42 || v == 39 || v == 40 || v == 41

/-- The JS builtin `encodeURIComponent`: unreserved characters pass
through, every other character becomes the percent-encoded uppercase hex
of its UTF-8 bytes. -/
def encodeURIComponent (s : String) : String :=
  ⟨s.data.flatMap fun c =>
    if uriUnreserved c then [c]
    else (utf8Bytes c).flatMap fun b => ['%', hexDigitU (b / 16), hexDigitU (b % 16)]⟩

/-- Lowercase hexadecimal digit, for JSON control-character escapes. -/
def hexDigitL (n : Nat) : Char :=
  if n < 10 then Char.ofNat (48 + n) else Char.ofNat (87 + n)

/-- The JS builtin `JSON.stringify` escape of one string character. -/
def jsonEscapeChar (c : Char) : List Char :=
  let v := c.toNat
  if v == 34 then ['\\', '"']
  else if v == 92 then ['\\', '\\']
  else if v == 8 then ['\\', 'b']
  else if v == 9 then ['\\', 't']
  else if v == 10 then ['\\', 'n']
  else if v == 12 then ['\\', 'f']
  else if v == 13 then ['\\', 'r']
  else if v < 32 then ['\\', 'u', '0', '0', hexDigitL (v / 16), hexDigitL (v % 16)]
  else [c]

/-- The JS builtin `JSON.stringify` on a string. -/
def jsonQuote (s : String) : String :=
  "\"" ++ ⟨s.data.flatMap jsonEscapeChar⟩ ++ "\""

/-- The JS builtin `JSON.stringify` on a string-to-string object (the
`headers` field), keys in insertion order. -/
def jsonStringifyHeaders (hs : List (String × String)) : String :=
  "\x7b" ++ String.intercalate "," (hs.map fun kv => jsonQuote kv.1 ++ ":" ++ jsonQuote kv.2) ++ "\x7d"

/-- One percent-encoded optional query parameter of the deep link:
`&name="<encoded value>"` when the field is truthy, empty otherwise. -/
def encodedParam (name : String) (v : Option String) : String :=
  if truthyStr v then "&" ++ name ++ "=\"" ++ encodeURIComponent (v.getD "") ++ "\"" else ""

/-- One verbatim optional query parameter of the deep link (no
percent-encoding in the source): `&name="<value>"` when truthy. -/
def verbatimParam (name : String) (v : Option String) : String :=
  if truthyStr v then "&" ++ name ++ "=\"" ++ v.getD "" ++ "\"" else ""

/-- One numeric optional query parameter of the deep link. -/
def natParam (name : String) (v : Option Nat) : String :=
  if truthyNat v then "&" ++ name ++ "=\"" ++ toString (v.getD 0) ++ "\"" else ""

/-- The headers query parameter of the deep link: JSON-stringified, not
percent-encoded, present whenever the headers object is (any object is
truthy). -/
def headersParam (v : Option (List (String × String))) : String :=
  match v with
  | some hs => "&headers=\"" ++ jsonStringifyHeaders hs ++ "\""
  | none => ""

/-- Translated from `IntentUrl.toString`: the configured base, then
`?action="<action>"` (a null action prints as the string "null" under JS
string coercion), then each optional field in source order — the four
URL fields, `applicationName` and `actionDescription` percent-encoded,
`headers` JSON-stringified, the two timeouts and `lang` verbatim — each
value wrapped in literal quotes. -/
def intentUrlToString (cfg : Config) (u : IntentUrl) : String :=
  cfg.AUTH_APP_INTENT_URL_BASE
    ++ "?action=\"" ++ u.action.getD "null" ++ "\""
    ++ encodedParam "getAuthChallengeUrl" u.getAuthChallengeUrl
    ++ encodedParam "postAuthTokenUrl" u.postAuthTokenUrl
    ++ encodedParam "postPrepareSigningUrl" u.postPrepareSigningUrl
    ++ encodedParam "postFinalizeSigningUrl" u.postFinalizeSigningUrl
    ++ encodedParam "applicationName" u.applicationName
    ++ encodedParam "actionDescription" u.actionDescription
    ++ headersParam u.headers
    ++ natParam "userInteractionTimeout" u.userInteractionTimeout
    ++ natParam "serverRequestTimeout" u.serverRequestTimeout
    ++ verbatimParam "lang" u.lang

/-! ### Observations on the service state -/

/-- The message action of instance `i`, when the instance exists. -/
def actOf (s : SysState) (i : Nat) : Option (Option String) :=
  (s.insts[i]?).map fun p => p.msg.action

/-- The promise state of instance `i`, when the instance exists. -/
def settledOf (s : SysState) (i : Nat) : Option (Option Settlement) :=
  (s.insts[i]?).map fun p => p.settled

/-! ### Lemmas about `updInsts` -/

/-- The registry invariant: queued instances have pairwise distinct
message actions (single flight), and every queued instance exists and is
unsettled. -/
def Inv (s : SysState) : Prop :=
  s.queue.Pairwise (fun i j => actOf s i ≠ actOf s j) ∧
  ∀ i ∈ s.queue, settledOf s i = some none

/-- An http (not https) poll target message, for the C7 witness. -/
def c7msgInsecure : Message :=
  { action := some Action.AUTHENTICATE, getAuthSuccessUrl := some "http://rp.example/success" }

/-- A message with no poll target, for the C7 witness. -/
def c7msgMissing : Message := { action := some Action.AUTHENTICATE }

/-- A message with only the challenge url, for the C8 witness. -/
def c8msgHalfPair : Message :=
  { action := some Action.AUTHENTICATE, getAuthChallengeUrl := some "https://rp.example/challenge" }

/-- A message with the complete authentication url pair, for the C8
witness. -/
def c8msgFullPair : Message :=
  { action := some Action.AUTHENTICATE,
    getAuthChallengeUrl := some "https://rp.example/challenge",
    postAuthTokenUrl := some "https://rp.example/token" }

/-- The state after a first successful `send` of the authenticate action
from the fresh service, shared by several concrete instantiations. -/
def sendAuth : SysState :=
  (send initState { action := some Action.AUTHENTICATE } 30000 true).fst

def ackError (p : Inst) : WebEidError :=
  if p.msg.useAuthApp then .authAppNotInstalled else .extensionUnavailable

def ackRemoveState (s : SysState) (i : Nat) (p : Inst) : SysState :=
  removeFromQueue
    { s with insts := updInsts s.insts i (rejectCall (.failureErr (ackError p))) }
    p.msg.action

/-- Configuration for the C9 deep-link instantiations. -/
def c9cfg : Config := ⟨"https://web-eid.app/authorize", 2000⟩

/-- The C9 deep-link field snapshot: complete authentication pair plus a
lang value containing a character that percent-encoding would escape. -/
def c9u : IntentUrl :=
  { action := some Action.AUTHENTICATE,
    getAuthChallengeUrl := some "https://rp.example/c",
    postAuthTokenUrl := some "https://rp.example/t",
    lang := some "a&b" }

/-- The message the C9 `IntentUrl` is constructed from. -/
def c9m : Message :=
  { action := some Action.AUTHENTICATE,
    getAuthChallengeUrl := some "https://rp.example/c",
    postAuthTokenUrl := some "https://rp.example/t",
    lang := some "a&b" }
/-! ### Deep-link string decomposition lemmas -/

/-! ### Theorems -/

theorem updInsts_length (l : List Inst) (i : Nat) (f : Inst → Inst) :
    (updInsts l i f).length = l.length := by
  induction l generalizing i with
  | nil => rfl
  | cons p ps ih =>
    cases i with
    | zero => rfl
    | succ n => simp [updInsts, ih]

theorem getElem?_updInsts_self (l : List Inst) (i : Nat) (f : Inst → Inst) :
    (updInsts l i f)[i]? = (l[i]?).map f := by
  induction l generalizing i with
  | nil => cases i <;> rfl
  | cons p ps ih =>
    cases i with
    | zero => simp [updInsts]
    | succ n => simpa [updInsts] using ih n

theorem getElem?_updInsts_ne (l : List Inst) (f : Inst → Inst) {i j : Nat} (h : j ≠ i) :
    (updInsts l i f)[j]? = l[j]? := by
  induction l generalizing i j with
  | nil => rfl
  | cons p ps ih =>
    cases i with
    | zero =>
      cases j with
      | zero => exact absurd rfl h
      | succ n => simp [updInsts]
    | succ n =>
      cases j with
      | zero => simp [updInsts]
      | succ k => simpa [updInsts] using ih (fun hk => h (by simp [hk]))

theorem map_getElem?_updInsts {α : Type} (g : Inst → α) (l : List Inst) (i : Nat)
    (f : Inst → Inst) (hf : ∀ p, g (f p) = g p) (j : Nat) :
    ((updInsts l i f)[j]?).map g = (l[j]?).map g := by
  by_cases h : j = i
  · subst h
    rw [getElem?_updInsts_self]
    cases l[j]? <;> simp [hf]
  · rw [getElem?_updInsts_ne l f h]

/-! ### Lemmas about lookup and removal -/

theorem matchPred_congr {l l' : List Inst}
    (h : ∀ j : Nat, (l'[j]?).map (fun p : Inst => p.msg) = (l[j]?).map fun p : Inst => p.msg)
    (key : Option String) (i : Nat) : matchPred l' key i = matchPred l key i := by
  have hi := h i
  unfold matchPred
  cases h1 : l'[i]? with
  | none =>
    rw [h1] at hi
    cases h2 : l[i]? with
    | none => rfl
    | some p =>
      rw [h2] at hi
      exact absurd hi (by simp)
  | some q =>
    rw [h1] at hi
    cases h2 : l[i]? with
    | none =>
      rw [h2] at hi
      exact absurd hi (by simp)
    | some p =>
      rw [h2] at hi
      have hq : q.msg = p.msg := by simpa using hi
      show (q.msg.action == key) = (p.msg.action == key)
      rw [hq]

theorem matchPred_eq_true {l : List Inst} {key : Option String} {i : Nat}
    (h : matchPred l key i = true) : ∃ p, l[i]? = some p ∧ p.msg.action = key := by
  unfold matchPred at h
  cases h1 : l[i]? with
  | none => rw [h1] at h; simp at h
  | some p =>
    rw [h1] at h
    exact ⟨p, rfl, by simpa using h⟩

theorem rfq_map {α : Type} (g : Inst → α)
    (hg : ∀ p, g { p with replyArmed := false } = g p)
    (s : SysState) (key : Option String) (j : Nat) :
    ((removeFromQueue s key).insts[j]?).map g = (s.insts[j]?).map g := by
  unfold removeFromQueue
  cases h : getPendingMessage s key with
  | none => simp
  | some i => simpa using map_getElem?_updInsts g s.insts i _ hg j

theorem rfq_msg (s : SysState) (key : Option String) (j : Nat) :
    ((removeFromQueue s key).insts[j]?).map (fun p => p.msg)
      = (s.insts[j]?).map fun p => p.msg :=
  rfq_map (fun p => p.msg) (fun _ => rfl) s key j

theorem rfq_settled (s : SysState) (key : Option String) (j : Nat) :
    ((removeFromQueue s key).insts[j]?).map (fun p => p.settled)
      = (s.insts[j]?).map fun p => p.settled :=
  rfq_map (fun p => p.settled) (fun _ => rfl) s key j

theorem rfq_ackArmed (s : SysState) (key : Option String) (j : Nat) :
    ((removeFromQueue s key).insts[j]?).map (fun p => p.ackArmed)
      = (s.insts[j]?).map fun p => p.ackArmed :=
  rfq_map (fun p => p.ackArmed) (fun _ => rfl) s key j

theorem rfq_queue (s : SysState) (key : Option String) :
    (removeFromQueue s key).queue
      = s.queue.filter fun i => !(matchPred s.insts key i) := by
  unfold removeFromQueue
  cases h : getPendingMessage s key with
  | none => simp
  | some i =>
    simp only
    apply List.filter_congr
    intro x _
    have : matchPred (updInsts s.insts i fun p => { p with replyArmed := false }) key x
        = matchPred s.insts key x :=
      matchPred_congr
        (fun j => map_getElem?_updInsts (fun p => p.msg) s.insts i
          (fun p => { p with replyArmed := false }) (fun _ => rfl) j) key x
    rw [this]

theorem lt_length_of_getElem?_some {α : Type} {l : List α} {n : Nat} {a : α}
    (h : l[n]? = some a) : n < l.length := by
  by_contra hc
  push_neg at hc
  rw [List.getElem?_eq_none hc] at h
  cases h

theorem getElem?_append_len {α : Type} (l : List α) (a : α) :
    (l ++ [a])[l.length]? = some a := by
  induction l with
  | nil => rfl
  | cons x xs ih => simp [ih]

theorem gpm_rfq_self (s : SysState) (key : Option String) :
    getPendingMessage (removeFromQueue s key) key = none := by
  unfold getPendingMessage
  rw [List.find?_eq_none]
  intro x hx
  rw [rfq_queue] at hx
  have hmem := List.mem_filter.mp hx
  have hkeep : matchPred s.insts key x = false := by
    have := hmem.2
    simpa using this
  have : matchPred (removeFromQueue s key).insts key x = matchPred s.insts key x :=
    matchPred_congr (fun j => rfq_msg s key j) key x
  simp [this, hkeep]

theorem rfq_queue_congr (s0 s : SysState) (key : Option String)
    (hq : s.queue = s0.queue)
    (hm : ∀ j : Nat, (s.insts[j]?).map (fun p : Inst => p.msg)
      = (s0.insts[j]?).map fun p : Inst => p.msg) :
    (removeFromQueue s key).queue
      = s0.queue.filter fun j => !(matchPred s0.insts key j) := by
  rw [rfq_queue, hq]
  apply List.filter_congr
  intro x _
  rw [matchPred_congr hm key x]

theorem map_msg_to_act {o o' : Option Inst}
    (h : o'.map (fun p : Inst => p.msg) = o.map fun p : Inst => p.msg) :
    o'.map (fun p : Inst => p.msg.action) = o.map fun p : Inst => p.msg.action := by
  cases h1 : o' with
  | none =>
    rw [h1] at h
    cases h2 : o with
    | none => rfl
    | some p => rw [h2] at h; exact absurd h (by simp)
  | some q =>
    rw [h1] at h
    cases h2 : o with
    | none => rw [h2] at h; exact absurd h (by simp)
    | some p =>
      rw [h2] at h
      have hq : q.msg = p.msg := by simpa using h
      simp [hq]

/-! ### The single-flight / unsettled-registry invariant -/

theorem inv_mem_some {s : SysState} {i : Nat} (h : Inv s) (hi : i ∈ s.queue) :
    ∃ p, s.insts[i]? = some p ∧ p.settled = none := by
  have hs := h.2 i hi
  unfold settledOf at hs
  cases h1 : s.insts[i]? with
  | none => rw [h1] at hs; exact absurd hs (by simp)
  | some p =>
    rw [h1] at hs
    exact ⟨p, rfl, by simpa using hs⟩

/-- Master preservation lemma for the settlement-and-removal steps: if
the new state's queue is the old one filtered by key mismatch, actions
are pointwise preserved, settlement is preserved off the settled index
`i`, and `i`'s action is the removal key, the invariant carries over. -/
theorem inv_preserved_remove (s s' : SysState) (key : Option String) (i : Nat)
    (hq : s'.queue = s.queue.filter fun j => !(matchPred s.insts key j))
    (ha : ∀ j, actOf s' j = actOf s j)
    (hsj : ∀ j, j ≠ i → settledOf s' j = settledOf s j)
    (hact : actOf s i = some key)
    (h : Inv s) : Inv s' := by
  constructor
  · rw [hq]
    have hp : (s.queue.filter fun j => !(matchPred s.insts key j)).Pairwise
        fun a b => actOf s a ≠ actOf s b :=
      h.1.sublist (List.filter_sublist s.queue)
    exact hp.imp fun hab => by rw [ha, ha]; exact hab
  · intro j hj
    rw [hq] at hj
    obtain ⟨hjq, hjp⟩ := List.mem_filter.mp hj
    have hmp : matchPred s.insts key j = false := by simpa using hjp
    have hne : j ≠ i := by
      intro he
      subst he
      unfold actOf at hact
      cases h1 : s.insts[j]? with
      | none => rw [h1] at hact; exact absurd hact (by simp)
      | some p =>
        rw [h1] at hact
        have hpa : p.msg.action = key := by simpa using hact
        unfold matchPred at hmp
        rw [h1] at hmp
        simp [hpa] at hmp
    rw [hsj j hne]
    exact h.2 j hjq

/-- The initial state satisfies the invariant. -/
theorem inv_init : Inv initState := by
  constructor
  · exact List.Pairwise.nil
  · intro i hi
    cases hi

/-- Pointwise preservation of the queue, the actions and the settlement
states transfers the invariant. -/
theorem inv_pointwise {s s' : SysState} (hq : s'.queue = s.queue)
    (ha : ∀ j, actOf s' j = actOf s j)
    (hs2 : ∀ j, settledOf s' j = settledOf s j)
    (h : Inv s) : Inv s' := by
  constructor
  · rw [hq]
    exact h.1.imp fun hab => by rw [ha, ha]; exact hab
  · intro j hj
    rw [hq] at hj
    rw [hs2 j]
    exact h.2 j hj

theorem inv_send_push (s : SysState) (m : Message) (t : Nat)
    (hmiss : getPendingMessage s m.action = none) (h : Inv s) :
    Inv ⟨s.insts ++ [{ msg := m, replyDelay := t }], s.queue ++ [s.insts.length]⟩ := by
  have hall : ∀ x ∈ s.queue, matchPred s.insts m.action x = false := by
    intro x hx
    have hx2 := List.find?_eq_none.mp hmiss x hx
    simpa using hx2
  have hpres : ∀ a ∈ s.queue,
      ((s.insts ++ [{ msg := m, replyDelay := t }])[a]?) = s.insts[a]? := by
    intro a ha
    obtain ⟨p, hip, -⟩ := inv_mem_some h ha
    exact List.getElem?_append_left (lt_length_of_getElem?_some hip)
  constructor
  · rw [List.pairwise_append]
    refine ⟨?_, List.pairwise_singleton _ _, ?_⟩
    · exact h.1.imp_of_mem fun {a b} ha hb hab => by
        unfold actOf
        simp only [hpres a ha, hpres b hb]
        exact hab
    · intro a ha b hb
      have hb' : b = s.insts.length := by simpa using hb
      subst hb'
      obtain ⟨p, hip, -⟩ := inv_mem_some h ha
      have h1 : actOf ⟨s.insts ++ [{ msg := m, replyDelay := t }], s.queue ++ [s.insts.length]⟩ a
          = some p.msg.action := by
        unfold actOf
        simp only [hpres a ha, hip, Option.map_some']
      have h2 : actOf ⟨s.insts ++ [{ msg := m, replyDelay := t }], s.queue ++ [s.insts.length]⟩
          s.insts.length = some m.action := by
        unfold actOf
        rw [getElem?_append_len]
        rfl
      rw [h1, h2]
      have hne : p.msg.action ≠ m.action := by
        have := hall a ha
        unfold matchPred at this
        rw [hip] at this
        simpa using this
      simp [hne]
  · intro j hj
    rcases List.mem_append.mp hj with hjl | hjr
    · have hs := h.2 j hjl
      unfold settledOf at hs ⊢
      rw [hpres j hjl]
      exact hs
    · have hj' : j = s.insts.length := by simpa using hjr
      subst hj'
      unfold settledOf
      rw [getElem?_append_len]
      rfl

/-- Any settle-call update at the matched index followed by the removal
of its action preserves the invariant; this covers the success and
failure branches of `receive`. -/
theorem inv_settle_remove (s : SysState) (key : Option String) (i : Nat)
    (f : Inst → Inst) (hf : ∀ p, (f p).msg = p.msg)
    (hact : actOf s i = some key)
    (h : Inv s) :
    Inv (removeFromQueue { s with insts := updInsts s.insts i f } key) := by
  have hm : ∀ j : Nat,
      ((updInsts s.insts i f)[j]?).map (fun p : Inst => p.msg)
        = (s.insts[j]?).map fun p : Inst => p.msg :=
    fun j => map_getElem?_updInsts (fun p : Inst => p.msg) s.insts i f hf j
  apply inv_preserved_remove s _ key i ?_ ?_ ?_ hact h
  · exact rfq_queue_congr s _ key rfl hm
  · intro j
    unfold actOf
    exact map_msg_to_act (by rw [rfq_msg]; exact hm j)
  · intro j hj
    unfold settledOf
    rw [rfq_settled]
    show ((updInsts s.insts i f)[j]?).map (fun p : Inst => p.settled)
      = (s.insts[j]?).map fun p : Inst => p.settled
    rw [getElem?_updInsts_ne s.insts f hj]

theorem inv_receive (s : SysState) (m : Message) (h : Inv s) : Inv (receive s m) := by
  unfold receive
  cases hma : m.action with
  | none => exact h
  | some a =>
    cases hsw : startsWithS a "web-eid:" with
    | false => simpa [hsw] using h
    | true =>
      simp only [hsw, Bool.not_true, Bool.false_eq_true, if_false]
      cases hg : getPendingMessage s (some (getInitialAction a)) with
      | none => exact h
      | some i =>
        obtain ⟨p, hip, hpa⟩ := matchPred_eq_true (List.find?_some hg)
        have hact : actOf s i = some (some (getInitialAction a)) := by
          unfold actOf
          rw [hip, Option.map_some', hpa]
        cases hsf : matchSuffix a with
        | none => exact h
        | some sfx =>
          cases sfx with
          | ackSfx =>
            show Inv { s with insts := updInsts s.insts i fun p => { p with ackArmed := false } }
            refine inv_pointwise ?_ ?_ ?_ h
            · rfl
            · intro j
              unfold actOf
              exact map_msg_to_act
                (map_getElem?_updInsts (fun p : Inst => p.msg) s.insts i
                  (fun p => { p with ackArmed := false }) (fun _ => rfl) j)
            · intro j
              unfold settledOf
              exact map_getElem?_updInsts (fun p : Inst => p.settled) s.insts i
                (fun p => { p with ackArmed := false }) (fun _ => rfl) j
          | successSfx =>
            exact inv_settle_remove s _ i (resolveCall m) (fun _ => rfl) hact h
          | failureSfx =>
            exact inv_settle_remove s _ i
              (rejectCall (match m.error with
                | some e => .failureErr (deserializeError e)
                | none => .failureRaw m)) (fun _ => rfl) hact h

/-- Removal of the matched action after any message-preserving rewrite of
the instance store (settlement changed at most at the matched index)
preserves the invariant. -/
theorem inv_remove_general (s : SysState) (key : Option String) (i : Nat) (l2 : List Inst)
    (hm : ∀ j : Nat, (l2[j]?).map (fun p : Inst => p.msg)
      = (s.insts[j]?).map fun p : Inst => p.msg)
    (hsj : ∀ j : Nat, j ≠ i → (l2[j]?).map (fun p : Inst => p.settled)
      = (s.insts[j]?).map fun p : Inst => p.settled)
    (hact : actOf s i = some key)
    (h : Inv s) : Inv (removeFromQueue ⟨l2, s.queue⟩ key) := by
  refine inv_preserved_remove s _ key i ?_ ?_ ?_ hact h
  · exact rfq_queue_congr s ⟨l2, s.queue⟩ key rfl hm
  · intro j
    unfold actOf
    exact map_msg_to_act (by rw [rfq_msg]; exact hm j)
  · intro j hj
    unfold settledOf
    rw [rfq_settled]
    exact hsj j hj

/-- As `inv_remove_general`, followed by a further message- and
settlement-preserving point update at the matched index (the trailing
reply-timer clear of `onAckTimeout`). -/
theorem inv_remove_upd_general (s : SysState) (key : Option String) (i : Nat) (l2 : List Inst)
    (f3 : Inst → Inst) (h3m : ∀ q, (f3 q).msg = q.msg) (h3s : ∀ q, (f3 q).settled = q.settled)
    (hm : ∀ j : Nat, (l2[j]?).map (fun p : Inst => p.msg)
      = (s.insts[j]?).map fun p : Inst => p.msg)
    (hsj : ∀ j : Nat, j ≠ i → (l2[j]?).map (fun p : Inst => p.settled)
      = (s.insts[j]?).map fun p : Inst => p.settled)
    (hact : actOf s i = some key)
    (h : Inv s) :
    Inv { removeFromQueue ⟨l2, s.queue⟩ key with
          insts := updInsts (removeFromQueue ⟨l2, s.queue⟩ key).insts i f3 } := by
  refine inv_preserved_remove s _ key i ?_ ?_ ?_ hact h
  · exact rfq_queue_congr s ⟨l2, s.queue⟩ key rfl hm
  · intro j
    unfold actOf
    refine map_msg_to_act ?_
    rw [map_getElem?_updInsts (fun p : Inst => p.msg) _ i f3 h3m j, rfq_msg]
    exact hm j
  · intro j hj
    unfold settledOf
    rw [map_getElem?_updInsts (fun p : Inst => p.settled) _ i f3 h3s j, rfq_settled]
    exact hsj j hj

theorem inv_fireReply (s : SysState) (i : Nat) (h : Inv s) : Inv (fireReply s i) := by
  unfold fireReply onReplyTimeout
  cases hip : s.insts[i]? with
  | none =>
    rw [getElem?_updInsts_self, hip]
    refine inv_pointwise ?_ ?_ ?_ h
    · rfl
    · intro j
      unfold actOf
      exact map_msg_to_act
        (map_getElem?_updInsts (fun p : Inst => p.msg) s.insts i
          (fun p => { p with replyArmed := false }) (fun _ => rfl) j)
    · intro j
      unfold settledOf
      exact map_getElem?_updInsts (fun p : Inst => p.settled) s.insts i
        (fun p => { p with replyArmed := false }) (fun _ => rfl) j
  | some p =>
    rw [getElem?_updInsts_self, hip]
    refine inv_remove_general s p.msg.action i _ ?_ ?_ ?_ h
    · intro j
      refine (map_getElem?_updInsts (fun q : Inst => q.msg) _ i _ ?_ j).trans
        (map_getElem?_updInsts (fun q : Inst => q.msg) s.insts i
          (fun q => { q with replyArmed := false }) (fun _ => rfl) j)
      intro q
      rfl
    · intro j hj
      rw [getElem?_updInsts_ne _ _ hj, getElem?_updInsts_ne _ _ hj]
    · unfold actOf
      rw [hip]
      rfl

theorem inv_fireAck (s : SysState) (i : Nat) (h : Inv s) : Inv (fireAck s i) := by
  unfold fireAck onAckTimeout
  cases hip : s.insts[i]? with
  | none =>
    rw [getElem?_updInsts_self, hip]
    refine inv_pointwise ?_ ?_ ?_ h
    · rfl
    · intro j
      unfold actOf
      exact map_msg_to_act
        (map_getElem?_updInsts (fun p : Inst => p.msg) s.insts i
          (fun p => { p with ackArmed := false }) (fun _ => rfl) j)
    · intro j
      unfold settledOf
      exact map_getElem?_updInsts (fun p : Inst => p.settled) s.insts i
        (fun p => { p with ackArmed := false }) (fun _ => rfl) j
  | some p =>
    rw [getElem?_updInsts_self, hip]
    refine inv_remove_upd_general s p.msg.action i _
      (fun q => { q with replyArmed := false }) (fun _ => rfl) (fun _ => rfl) ?_ ?_ ?_ h
    · intro j
      refine (map_getElem?_updInsts (fun q : Inst => q.msg) _ i _ ?_ j).trans
        (map_getElem?_updInsts (fun q : Inst => q.msg) s.insts i
          (fun q => { q with ackArmed := false }) (fun _ => rfl) j)
      intro q
      rfl
    · intro j hj
      rw [getElem?_updInsts_ne _ _ hj, getElem?_updInsts_ne _ _ hj]
    · unfold actOf
      rw [hip]
      rfl

/-- The registry invariant is preserved by every step of the service. -/
theorem inv_step {s s' : SysState} (h : Inv s) (hst : Step s s') : Inv s' := by
  cases hst with
  | send m t sec =>
    unfold WebEid.send
    cases hg : getPendingMessage s m.action with
    | some i => simpa [hg] using h
    | none =>
      cases sec with
      | false => simpa [hg] using h
      | true => simpa [hg] using inv_send_push s m t hg h
  | deliver m => exact inv_receive s m h
  | ackFire i hen => exact inv_fireAck s i h
  | replyFire i hen => exact inv_fireReply s i h

/-- Every reachable state satisfies the registry invariant. -/
theorem inv_reachable {s : SysState} (h : Reachable s) : Inv s := by
  induction h with
  | init => exact inv_init
  | step _ hst ih => exact inv_step ih hst

/-! ### Stability of settlement: the first resolve or reject wins -/

theorem settled_stable_updInsts {l : List Inst} {k : Nat} {f : Inst → Inst}
    (hf : ∀ p o, p.settled = some o → (f p).settled = some o) {i : Nat} {o : Settlement}
    (h : (l[i]?).map (fun p : Inst => p.settled) = some (some o)) :
    ((updInsts l k f)[i]?).map (fun p : Inst => p.settled) = some (some o) := by
  by_cases hik : i = k
  · subst hik
    rw [getElem?_updInsts_self]
    cases h1 : l[i]? with
    | none => rw [h1] at h; exact absurd h (by simp)
    | some p =>
      rw [h1] at h
      have hp : p.settled = some o := by simpa using h
      simpa using hf p o hp
  · rw [getElem?_updInsts_ne l f hik]
    exact h

theorem resolveCall_keeps_settled (m : Message) (p : Inst) (o : Settlement)
    (hp : p.settled = some o) : (resolveCall m p).settled = some o := by
  simp [resolveCall, hp]

theorem rejectCall_keeps_settled (o' : Settlement) (p : Inst) (o : Settlement)
    (hp : p.settled = some o) : (rejectCall o' p).settled = some o := by
  simp [rejectCall, hp]

theorem settled_stable_setAck {l : List Inst} {k i : Nat} {o : Settlement}
    (h : (l[i]?).map (fun p : Inst => p.settled) = some (some o)) :
    ((updInsts l k fun p => { p with ackArmed := false })[i]?).map
      (fun p : Inst => p.settled) = some (some o) := by
  refine settled_stable_updInsts ?_ h
  intro p o hp
  exact hp

theorem settled_stable_setReply {l : List Inst} {k i : Nat} {o : Settlement}
    (h : (l[i]?).map (fun p : Inst => p.settled) = some (some o)) :
    ((updInsts l k fun p => { p with replyArmed := false })[i]?).map
      (fun p : Inst => p.settled) = some (some o) := by
  refine settled_stable_updInsts ?_ h
  intro p o hp
  exact hp

theorem settled_stable_resolve {m : Message} {l : List Inst} {k i : Nat} {o : Settlement}
    (h : (l[i]?).map (fun p : Inst => p.settled) = some (some o)) :
    ((updInsts l k (resolveCall m))[i]?).map (fun p : Inst => p.settled) = some (some o) :=
  settled_stable_updInsts (resolveCall_keeps_settled m) h

theorem settled_stable_reject {o' : Settlement} {l : List Inst} {k i : Nat} {o : Settlement}
    (h : (l[i]?).map (fun p : Inst => p.settled) = some (some o)) :
    ((updInsts l k (rejectCall o'))[i]?).map (fun p : Inst => p.settled) = some (some o) :=
  settled_stable_updInsts (rejectCall_keeps_settled o') h

/-- Once an instance's promise is settled with an outcome, no step of
the service changes that outcome. -/
theorem step_settled_stable {s s' : SysState} (hst : Step s s') (i : Nat) (o : Settlement)
    (h : settledOf s i = some (some o)) : settledOf s' i = some (some o) := by
  unfold settledOf at h ⊢
  cases hst with
  | send m t sec =>
    unfold WebEid.send
    cases hg : getPendingMessage s m.action with
    | some k => simpa [hg] using h
    | none =>
      cases sec with
      | false => simpa [hg] using h
      | true =>
        simp only [hg, Option.isSome_none, Bool.false_eq_true, if_false, Bool.not_true]
        have hlt : i < s.insts.length := by
          cases h1 : s.insts[i]? with
          | none => rw [h1] at h; exact absurd h (by simp)
          | some p => exact lt_length_of_getElem?_some h1
        simpa [List.getElem?_append_left hlt] using h
  | deliver m =>
    unfold receive
    cases hma : m.action with
    | none => exact h
    | some a =>
      cases hsw : startsWithS a "web-eid:" with
      | false => simpa [hsw] using h
      | true =>
        simp only [hsw, Bool.not_true, Bool.false_eq_true, if_false]
        cases hg : getPendingMessage s (some (getInitialAction a)) with
        | none => exact h
        | some k =>
          cases hsf : matchSuffix a with
          | none => exact h
          | some sfx =>
            cases sfx with
            | ackSfx => exact settled_stable_setAck h
            | successSfx =>
              show ((removeFromQueue _ _).insts[i]?).map (fun p : Inst => p.settled) = _
              rw [rfq_settled]
              exact settled_stable_resolve h
            | failureSfx =>
              show ((removeFromQueue _ _).insts[i]?).map (fun p : Inst => p.settled) = _
              rw [rfq_settled]
              exact settled_stable_reject h
  | ackFire k hen =>
    unfold fireAck onAckTimeout
    cases hip : s.insts[k]? with
    | none =>
      rw [getElem?_updInsts_self, hip]
      exact settled_stable_setAck h
    | some p =>
      rw [getElem?_updInsts_self, hip]
      refine settled_stable_setReply ?_
      show ((removeFromQueue _ _).insts[i]?).map (fun p : Inst => p.settled) = _
      rw [rfq_settled]
      exact settled_stable_reject (settled_stable_setAck h)
  | replyFire k hen =>
    unfold fireReply onReplyTimeout
    cases hip : s.insts[k]? with
    | none =>
      rw [getElem?_updInsts_self, hip]
      exact settled_stable_setReply h
    | some p =>
      rw [getElem?_updInsts_self, hip]
      show ((removeFromQueue _ _).insts[i]?).map (fun p : Inst => p.settled) = _
      rw [rfq_settled]
      exact settled_stable_reject (settled_stable_setReply h)

/-! ### Suffix algebra for `getInitialAction` -/

theorem endsWithL_append (l t : List Char) : endsWithL (l ++ t) t = true := by
  unfold endsWithL
  rw [List.length_append, Nat.add_sub_cancel, List.drop_left]
  simp

theorem endsWithS_append (s t : String) : endsWithS (s ++ t) t = true := by
  unfold endsWithS
  rw [String.data_append]
  exact endsWithL_append s.data t.data

theorem stripSuffix_append (s t : String) : stripSuffix (s ++ t) t = s := by
  unfold stripSuffix
  rw [String.data_append, List.length_append, Nat.add_sub_cancel, List.take_left]

theorem getLast?_of_endsWithL {l t : List Char} (h : endsWithL l t = true) {c : Char}
    (hc : t.getLast? = some c) : l.getLast? = some c := by
  have hd : l.drop (l.length - t.length) = t := by
    unfold endsWithL at h
    simpa using h
  conv_lhs => rw [← List.take_append_drop (l.length - t.length) l]
  rw [List.getLast?_append, hd, hc]
  rfl

theorem endsWithL_excl {l t₁ t₂ : List Char} (h1 : endsWithL l t₁ = true) (c₁ c₂ : Char)
    (hc₁ : t₁.getLast? = some c₁) (hc₂ : t₂.getLast? = some c₂) (hne : c₁ ≠ c₂) :
    endsWithL l t₂ = false := by
  cases h2 : endsWithL l t₂ with
  | false => rfl
  | true =>
    have e1 := getLast?_of_endsWithL h1 hc₁
    have e2 := getLast?_of_endsWithL h2 hc₂
    rw [e1] at e2
    exact absurd (by simpa using e2) hne

theorem strip_success_append (s : String) : getInitialAction (s ++ "-success") = s := by
  unfold getInitialAction
  rw [endsWithS_append]
  simp [stripSuffix_append]

theorem strip_failure_append (s : String) : getInitialAction (s ++ "-failure") = s := by
  unfold getInitialAction
  have h1 : endsWithS (s ++ "-failure") "-failure" = true := endsWithS_append s _
  have h2 : endsWithS (s ++ "-failure") "-success" = false := by
    unfold endsWithS at h1 ⊢
    exact endsWithL_excl h1 'e' 's' (by decide) (by decide) (by decide)
  rw [h1, h2]
  simp [stripSuffix_append]

theorem strip_ack_append (s : String) : getInitialAction (s ++ "-ack") = s := by
  unfold getInitialAction
  have h1 : endsWithS (s ++ "-ack") "-ack" = true := endsWithS_append s _
  have h2 : endsWithS (s ++ "-ack") "-success" = false := by
    unfold endsWithS at h1 ⊢
    exact endsWithL_excl h1 'k' 's' (by decide) (by decide) (by decide)
  have h3 : endsWithS (s ++ "-ack") "-failure" = false := by
    unfold endsWithS at h1 ⊢
    exact endsWithL_excl h1 'k' 'e' (by decide) (by decide) (by decide)
  rw [h1, h2, h3]
  simp [stripSuffix_append]

/-! ### Claim theorems -/

/-- C10.  Suffix strip/append round-trip: for every string `s` and every
suffix `t` among "-ack", "-success", "-failure", `getInitialAction`
recovers `s` from `s ++ t`; and a string ending in none of the three
suffixes is returned unchanged.  Hence the bus listener recovers the
base action from each of the four textual variants of an action. -/
theorem spec_c10_strip_round_trip :
    (∀ s t : String, t ∈ (["-ack", "-success", "-failure"] : List String) →
      getInitialAction (s ++ t) = s) ∧
    (∀ s : String, endsWithS s "-ack" = false → endsWithS s "-success" = false →
      endsWithS s "-failure" = false → getInitialAction s = s) := by
  constructor
  · intro s t ht
    simp only [List.mem_cons, List.not_mem_nil, or_false] at ht
    rcases ht with rfl | rfl | rfl
    · exact strip_ack_append s
    · exact strip_success_append s
    · exact strip_failure_append s
  · intro s h1 h2 h3
    unfold getInitialAction
    simp [h1, h2, h3]

/-- Witness for C10 at the authenticate action and its variants. -/
theorem spec_c10_witness :
    getInitialAction "web-eid:authenticate-ack" = "web-eid:authenticate" ∧
    getInitialAction "web-eid:authenticate-success" = "web-eid:authenticate" ∧
    getInitialAction "web-eid:authenticate-failure" = "web-eid:authenticate" ∧
    getInitialAction "web-eid:authenticate" = "web-eid:authenticate" := by
  refine ⟨?_, ?_, ?_, ?_⟩
  · exact spec_c10_strip_round_trip.1 "web-eid:authenticate" "-ack" (by decide)
  · exact spec_c10_strip_round_trip.1 "web-eid:authenticate" "-success" (by decide)
  · exact spec_c10_strip_round_trip.1 "web-eid:authenticate" "-failure" (by decide)
  · exact spec_c10_strip_round_trip.2 "web-eid:authenticate" (by decide) (by decide) (by decide)

theorem copyIfTruthy_beq_none (v : Option String) :
    (copyIfTruthy v == none) = !(truthyStr v) := by
  unfold copyIfTruthy
  cases h : truthyStr v with
  | false => simp
  | true =>
    cases v with
    | none => simp [truthyStr] at h
    | some s => simp

/-- C7.  Poll preconditions: `pollForLoginSuccess` fails with
`ProtocolInsecureError` when `getAuthSuccessUrl` is present (truthy)
but does not start with the https scheme, and with
`MissingParameterError` when it is absent; an error result means no
HTTP request is issued. -/
theorem spec_c7_poll_preconditions (m : Message) (t : Nat) :
    (truthyStr m.getAuthSuccessUrl = true →
      startsWithS (m.getAuthSuccessUrl.getD "") "https://" = false →
      pollForLoginSuccess m t = .error .protocolInsecure) ∧
    (truthyStr m.getAuthSuccessUrl = false →
      pollForLoginSuccess m t = .error .missingParameter) := by
  constructor
  · intro h1 h2
    unfold pollForLoginSuccess
    simp [h1, h2]
  · intro h1
    unfold pollForLoginSuccess
    simp [h1]

/-- Witness for C7: an http (non-https) poll target and an absent one. -/
theorem spec_c7_witness :
    pollForLoginSuccess c7msgInsecure 9000 = .error .protocolInsecure ∧
    pollForLoginSuccess c7msgMissing 9000 = .error .missingParameter := by
  constructor
  · exact (spec_c7_poll_preconditions c7msgInsecure 9000).1 (by decide) (by decide)
  · exact (spec_c7_poll_preconditions c7msgMissing 9000).2 (by decide)

/-- C8.  Deep-link validation invariant: constructing an `IntentUrl`
fails with `MissingParameterError` whenever neither the pair
(`getAuthChallengeUrl`, `postAuthTokenUrl`) nor the pair
(`postPrepareSigningUrl`, `postFinalizeSigningUrl`) is fully present
(truthy), and succeeds whenever the action is present and at least one
of the two pairs is complete. -/
theorem spec_c8_intent_validation (m : Message) :
    ((truthyStr m.getAuthChallengeUrl && truthyStr m.postAuthTokenUrl) = false →
      (truthyStr m.postPrepareSigningUrl && truthyStr m.postFinalizeSigningUrl) = false →
      mkIntentUrl m = .error .missingParameter) ∧
    (m.action.isSome = true →
      ((truthyStr m.getAuthChallengeUrl && truthyStr m.postAuthTokenUrl) = true ∨
        (truthyStr m.postPrepareSigningUrl && truthyStr m.postFinalizeSigningUrl) = true) →
      ∃ u, mkIntentUrl m = .ok u) := by
  constructor
  · intro h1 h2
    unfold mkIntentUrl validate
    simp only [copyIfTruthy_beq_none]
    have e1 : (!truthyStr m.getAuthChallengeUrl || !truthyStr m.postAuthTokenUrl) = true := by
      rw [← Bool.not_and, h1]
      rfl
    have e2 : (!truthyStr m.postFinalizeSigningUrl || !truthyStr m.postPrepareSigningUrl)
        = true := by
      rw [Bool.or_comm, ← Bool.not_and, h2]
      rfl
    simp [e1, e2]
  · intro ha hp
    obtain ⟨a, hma⟩ := Option.isSome_iff_exists.mp ha
    unfold mkIntentUrl validate
    simp only [copyIfTruthy_beq_none, hma]
    rcases hp with hp1 | hp1
    · rw [Bool.and_eq_true] at hp1
      obtain ⟨h1, h2⟩ := hp1
      simp [h1, h2]
    · rw [Bool.and_eq_true] at hp1
      obtain ⟨h1, h2⟩ := hp1
      simp [h1, h2]

/-- Witness for C8: only the challenge url set fails; challenge and token
post urls set succeeds. -/
theorem spec_c8_witness :
    mkIntentUrl c8msgHalfPair = .error .missingParameter ∧
    ∃ u, mkIntentUrl c8msgFullPair = .ok u := by
  constructor
  · exact (spec_c8_intent_validation c8msgHalfPair).1 (by decide) (by decide)
  · exact (spec_c8_intent_validation c8msgFullPair).2 (by decide) (Or.inl (by decide))

/-- C1.  Single-flight: `send` for an action that already has a pending
entry rejects with `ActionPendingError` and returns the state unchanged
(no registry or timer mutation); and in every reachable state the
registry holds pairwise distinct actions, so it never holds two
pending requests for the same base action. -/
theorem spec_c1_single_flight :
    (∀ (s : SysState) (m : Message) (t : Nat) (secure : Bool),
      (getPendingMessage s m.action).isSome = true →
      send s m t secure = (s, .error .actionPending)) ∧
    (∀ s : SysState, Reachable s →
      s.queue.Pairwise fun i j => actOf s i ≠ actOf s j) := by
  constructor
  · intro s m t secure h
    unfold WebEid.send
    simp [h]
  · intro s h
    exact (inv_reachable h).1

/-- Witness for C1: a second authenticate `send` on a state already
holding one rejects without mutation, and that state is single-flight. -/
theorem spec_c1_witness :
    send sendAuth { action := some Action.AUTHENTICATE } 1000 true
      = (sendAuth, .error .actionPending) ∧
    sendAuth.queue.Pairwise (fun i j => actOf sendAuth i ≠ actOf sendAuth j) := by
  constructor
  · exact spec_c1_single_flight.1 sendAuth
      { action := some Action.AUTHENTICATE } 1000 true (by decide)
  · exact spec_c1_single_flight.2 sendAuth
      (Reachable.step Reachable.init
        (Step.send initState { action := some Action.AUTHENTICATE } 30000 true))

/-- C5 counterexample.  In the reachable state holding one freshly sent
authenticate request (both timers armed), `removeFromQueue` deletes the
entry and clears the reply timer but leaves the ack timer armed — the
claim that removal clears both timer handles is false on the code. -/
theorem spec_c5_counterexample :
    Reachable sendAuth ∧
    ackEnabled sendAuth 0 = true ∧
    (removeFromQueue sendAuth (some Action.AUTHENTICATE)).queue = [] ∧
    ((removeFromQueue sendAuth (some Action.AUTHENTICATE)).insts[0]?).map
      (fun p : Inst => p.replyArmed) = some false ∧
    ((removeFromQueue sendAuth (some Action.AUTHENTICATE)).insts[0]?).map
      (fun p : Inst => p.ackArmed) = some true := by
  refine ⟨Reachable.step Reachable.init
    (Step.send initState { action := some Action.AUTHENTICATE } 30000 true), ?_, ?_, ?_, ?_⟩
  · decide
  · decide
  · decide
  · decide

/-- C5 amended.  `removeFromQueue` is a no-op when no entry matches;
when an entry matches it deletes every entry for that action and clears
the matched entry's reply timer, leaving every ack timer and every
promise state untouched (the ack-timer handle is not cleared). -/
theorem spec_c5_amended (s : SysState) (key : Option String) :
    (getPendingMessage s key = none → removeFromQueue s key = s) ∧
    (∀ i, getPendingMessage s key = some i →
      (removeFromQueue s key).queue
        = s.queue.filter (fun j => !(matchPred s.insts key j)) ∧
      ((removeFromQueue s key).insts[i]?).map (fun p : Inst => p.replyArmed) = some false ∧
      (∀ j : Nat, ((removeFromQueue s key).insts[j]?).map (fun p : Inst => p.ackArmed)
        = (s.insts[j]?).map fun p : Inst => p.ackArmed) ∧
      (∀ j : Nat, ((removeFromQueue s key).insts[j]?).map (fun p : Inst => p.settled)
        = (s.insts[j]?).map fun p : Inst => p.settled) ∧
      getPendingMessage (removeFromQueue s key) key = none) := by
  constructor
  · intro h
    unfold removeFromQueue
    rw [h]
    cases s with
    | mk insts queue =>
      simp only
      congr 1
      apply List.filter_eq_self.mpr
      intro x hx
      have := List.find?_eq_none.mp h x hx
      simpa using this
  · intro i h
    obtain ⟨p, hip, hpa⟩ := matchPred_eq_true (List.find?_some h)
    refine ⟨rfq_queue s key, ?_, rfq_ackArmed s key, rfq_settled s key, gpm_rfq_self s key⟩
    unfold removeFromQueue
    rw [h]
    simp only
    rw [getElem?_updInsts_self, hip]
    rfl

/-- Witness for C5 amended: removal on the empty service is a no-op, and
removal of the single pending authenticate entry clears its reply
timer. -/
theorem spec_c5_witness :
    removeFromQueue initState (some Action.AUTHENTICATE) = initState ∧
    ((removeFromQueue sendAuth (some Action.AUTHENTICATE)).insts[0]?).map
      (fun p : Inst => p.replyArmed) = some false := by
  constructor
  · exact (spec_c5_amended initState (some Action.AUTHENTICATE)).1 (by decide)
  · exact (((spec_c5_amended sendAuth (some Action.AUTHENTICATE)).2 0 (by decide)).2).1

/-! ### Handler specifications for the timeout paths -/

theorem gpm_congr (s s' : SysState) (hq : s'.queue = s.queue)
    (hm : ∀ j : Nat, (s'.insts[j]?).map (fun p : Inst => p.msg)
      = (s.insts[j]?).map fun p : Inst => p.msg)
    (key : Option String) : getPendingMessage s' key = getPendingMessage s key := by
  unfold getPendingMessage
  rw [hq]
  have hfun : matchPred s'.insts key = matchPred s.insts key :=
    funext fun j => matchPred_congr hm key j
  rw [hfun]

theorem onReplyTimeout_eq (s : SysState) (i : Nat) (p : Inst) (hip : s.insts[i]? = some p) :
    onReplyTimeout s i
      = removeFromQueue
          { s with insts := updInsts s.insts i (rejectCall (.failureErr .actionTimeout)) }
          p.msg.action := by
  unfold onReplyTimeout
  rw [hip]

theorem onReplyTimeout_spec (s : SysState) (i : Nat) (p : Inst)
    (hip : s.insts[i]? = some p) (hset : p.settled = none) :
    settledOf (onReplyTimeout s i) i = some (some (.failureErr .actionTimeout)) ∧
    getPendingMessage (onReplyTimeout s i) p.msg.action = none := by
  rw [onReplyTimeout_eq s i p hip]
  constructor
  · unfold settledOf
    rw [rfq_settled, getElem?_updInsts_self, hip]
    simp [rejectCall, hset]
  · exact gpm_rfq_self _ _

theorem fireReply_spec (s : SysState) (i : Nat) (p : Inst)
    (hip : s.insts[i]? = some p) (hset : p.settled = none) :
    settledOf (fireReply s i) i = some (some (.failureErr .actionTimeout)) ∧
    getPendingMessage (fireReply s i) p.msg.action = none := by
  unfold fireReply
  have hsd : (updInsts s.insts i fun q => { q with replyArmed := false })[i]?
      = some { p with replyArmed := false } := by
    rw [getElem?_updInsts_self, hip]
    rfl
  exact onReplyTimeout_spec _ i { p with replyArmed := false } hsd hset

theorem onAckTimeout_eq (s : SysState) (i : Nat) (p : Inst) (hip : s.insts[i]? = some p) :
    onAckTimeout s i
      = ⟨updInsts (ackRemoveState s i p).insts i fun q => { q with replyArmed := false },
         (ackRemoveState s i p).queue⟩ := by
  unfold onAckTimeout ackRemoveState ackError
  rw [hip]

theorem onAckTimeout_spec (s : SysState) (i : Nat) (p : Inst)
    (hip : s.insts[i]? = some p) (hset : p.settled = none) :
    settledOf (onAckTimeout s i) i
      = some (some (.failureErr
          (if p.msg.useAuthApp then .authAppNotInstalled else .extensionUnavailable))) ∧
    getPendingMessage (onAckTimeout s i) p.msg.action = none := by
  rw [onAckTimeout_eq s i p hip]
  constructor
  · show ((updInsts (ackRemoveState s i p).insts i
        fun q => { q with replyArmed := false })[i]?).map (fun q : Inst => q.settled)
      = some (some (.failureErr
          (if p.msg.useAuthApp then .authAppNotInstalled else .extensionUnavailable)))
    rw [map_getElem?_updInsts (fun q : Inst => q.settled) _ i
      (fun q => { q with replyArmed := false }) (fun _ => rfl) i]
    unfold ackRemoveState
    rw [rfq_settled, getElem?_updInsts_self, hip]
    simp [rejectCall, hset, ackError]
  · have h1 : getPendingMessage
        ⟨updInsts (ackRemoveState s i p).insts i fun q => { q with replyArmed := false },
         (ackRemoveState s i p).queue⟩ p.msg.action
        = getPendingMessage (ackRemoveState s i p) p.msg.action :=
      gpm_congr (ackRemoveState s i p)
        ⟨updInsts (ackRemoveState s i p).insts i fun q => { q with replyArmed := false },
         (ackRemoveState s i p).queue⟩
        rfl
        (fun j => map_getElem?_updInsts (fun q : Inst => q.msg) (ackRemoveState s i p).insts i
          (fun q => { q with replyArmed := false }) (fun _ => rfl) j)
        p.msg.action
    rw [h1]
    unfold ackRemoveState
    exact gpm_rfq_self _ _

theorem fireAck_spec (s : SysState) (i : Nat) (p : Inst)
    (hip : s.insts[i]? = some p) (hset : p.settled = none) :
    settledOf (fireAck s i) i
      = some (some (.failureErr
          (if p.msg.useAuthApp then .authAppNotInstalled else .extensionUnavailable))) ∧
    getPendingMessage (fireAck s i) p.msg.action = none := by
  unfold fireAck
  have hsd : (updInsts s.insts i fun q => { q with ackArmed := false })[i]?
      = some { p with ackArmed := false } := by
    rw [getElem?_updInsts_self, hip]
    rfl
  exact onAckTimeout_spec _ i { p with ackArmed := false } hsd hset

/-- C2 counterexample.  A reachable trace in which a success settlement
has settled the future and removed the registry entry, yet the ack
timer is still armed; when it fires, its handler performs a second
terminal reject invocation on the very same request instance
(`settleCalls` reaches 2) — so a terminal handler does re-enter after
settlement-and-removal, contradicting the claim. -/
theorem spec_c2_counterexample :
    Reachable (fireAck (receive sendAuth { action := some Action.AUTHENTICATE_SUCCESS }) 0) ∧
    settledOf (receive sendAuth { action := some Action.AUTHENTICATE_SUCCESS }) 0
      = some (some (.success { action := some Action.AUTHENTICATE_SUCCESS })) ∧
    (receive sendAuth { action := some Action.AUTHENTICATE_SUCCESS }).queue = [] ∧
    ackEnabled (receive sendAuth { action := some Action.AUTHENTICATE_SUCCESS }) 0 = true ∧
    (((fireAck (receive sendAuth { action := some Action.AUTHENTICATE_SUCCESS }) 0).insts[0]?).map
      fun p : Inst => p.settleCalls) = some 2 := by
  have r1 : Reachable sendAuth :=
    Reachable.step Reachable.init
      (Step.send initState { action := some Action.AUTHENTICATE } 30000 true)
  have r2 : Reachable (receive sendAuth { action := some Action.AUTHENTICATE_SUCCESS }) :=
    Reachable.step r1 (Step.deliver sendAuth { action := some Action.AUTHENTICATE_SUCCESS })
  refine ⟨Reachable.step r2
    (Step.ackFire (receive sendAuth { action := some Action.AUTHENTICATE_SUCCESS }) 0
      (by decide)), ?_, ?_, ?_, ?_⟩
  · decide
  · decide
  · decide
  · decide

/-- C2 amended.  Effective settlement is at most once per request
instance: a settled outcome is stable under every further step (later
resolve/reject invocations — including one from a still-armed ack timer
firing after settlement — cannot change it), and every instance still
registered in a reachable state is unsettled. -/
theorem spec_c2_amended :
    (∀ (s s' : SysState), Step s s' → ∀ (i : Nat) (o : Settlement),
      settledOf s i = some (some o) → settledOf s' i = some (some o)) ∧
    (∀ s : SysState, Reachable s → ∀ i ∈ s.queue, settledOf s i = some none) := by
  constructor
  · intro s s' hst i o h
    exact step_settled_stable hst i o h
  · intro s h i hi
    exact (inv_reachable h).2 i hi

/-- Witness for C2 amended: the success outcome of the counterexample
trace survives the late ack-timer firing, and the freshly sent request
is registered unsettled. -/
theorem spec_c2_witness :
    settledOf (fireAck (receive sendAuth { action := some Action.AUTHENTICATE_SUCCESS }) 0) 0
      = some (some (.success { action := some Action.AUTHENTICATE_SUCCESS })) ∧
    settledOf sendAuth 0 = some none := by
  constructor
  · exact spec_c2_amended.1 (receive sendAuth { action := some Action.AUTHENTICATE_SUCCESS })
      (fireAck (receive sendAuth { action := some Action.AUTHENTICATE_SUCCESS }) 0)
      (Step.ackFire (receive sendAuth { action := some Action.AUTHENTICATE_SUCCESS }) 0
        (by decide))
      0 (.success { action := some Action.AUTHENTICATE_SUCCESS }) (by decide)
  · exact spec_c2_amended.2 sendAuth
      (Reachable.step Reachable.init
        (Step.send initState { action := some Action.AUTHENTICATE } 30000 true))
      0 (by decide)

/-- C3.  Reply-timer independence: delivering an ack clears only the
matched request's ack timer (queue and every reply timer and promise
state unchanged), and whenever the reply timer fires on an unsettled
instance — whether or not an ack was received before, which the absence
of any ack-timer hypothesis expresses — the future rejects with
`ActionTimeoutError` and the registry entry for that action is gone. -/
theorem spec_c3_reply_timer_independence :
    (∀ (s : SysState) (m : Message) (a : String) (i : Nat),
      m.action = some a →
      startsWithS a "web-eid:" = true →
      matchSuffix a = some .ackSfx →
      getPendingMessage s (some (getInitialAction a)) = some i →
      (receive s m).queue = s.queue ∧
      (∀ j : Nat, ((receive s m).insts[j]?).map (fun p : Inst => p.replyArmed)
        = (s.insts[j]?).map fun p : Inst => p.replyArmed) ∧
      (∀ j : Nat, ((receive s m).insts[j]?).map (fun p : Inst => p.settled)
        = (s.insts[j]?).map fun p : Inst => p.settled) ∧
      ((receive s m).insts[i]?).map (fun p : Inst => p.ackArmed) = some false) ∧
    (∀ (s : SysState) (i : Nat) (p : Inst),
      s.insts[i]? = some p →
      p.settled = none →
      replyEnabled s i = true →
      settledOf (fireReply s i) i = some (some (.failureErr .actionTimeout)) ∧
      getPendingMessage (fireReply s i) p.msg.action = none) := by
  constructor
  · intro s m a i hma hsw hsf hg
    obtain ⟨p, hip, hpa⟩ := matchPred_eq_true (List.find?_some hg)
    unfold receive
    rw [hma]
    simp only [hsw, Bool.not_true, Bool.false_eq_true, if_false, hsf, hg]
    refine ⟨by trivial, ?_, ?_, ?_⟩
    · intro j
      exact map_getElem?_updInsts (fun q : Inst => q.replyArmed) s.insts i
        (fun q => { q with ackArmed := false }) (fun _ => rfl) j
    · intro j
      exact map_getElem?_updInsts (fun q : Inst => q.settled) s.insts i
        (fun q => { q with ackArmed := false }) (fun _ => rfl) j
    · rw [getElem?_updInsts_self, hip]
      rfl
  · intro s i p hip hset hen
    exact fireReply_spec s i p hip hset

/-- Witness for C3: an ack for the pending authenticate request leaves
its reply timer armed, and the reply timer firing rejects with the
timeout error and empties the registry. -/
theorem spec_c3_witness :
    ((receive sendAuth { action := some Action.AUTHENTICATE_ACK }).insts[0]?).map
      (fun p : Inst => p.replyArmed) = some true ∧
    ((receive sendAuth { action := some Action.AUTHENTICATE_ACK }).insts[0]?).map
      (fun p : Inst => p.ackArmed) = some false ∧
    settledOf (fireReply sendAuth 0) 0 = some (some (.failureErr .actionTimeout)) ∧
    getPendingMessage (fireReply sendAuth 0) (some Action.AUTHENTICATE) = none := by
  have h1 := spec_c3_reply_timer_independence.1 sendAuth
    { action := some Action.AUTHENTICATE_ACK } Action.AUTHENTICATE_ACK 0
    rfl (by decide) (by decide) (by decide)
  have h2 := spec_c3_reply_timer_independence.2 sendAuth 0
    { msg := { action := some Action.AUTHENTICATE }, replyDelay := 30000 }
    (by decide) (by decide) (by decide)
  refine ⟨?_, h1.2.2.2, h2.1, h2.2⟩
  rw [h1.2.1 0]
  decide

/-- C4.  Ack-timeout disambiguation: when the ack timer of a registered
(hence unsettled) pending request fires, the future rejects with
`AuthAppNotInstalledError` if the request's `useAuthApp` flag was set
and with `ExtensionUnavailableError` otherwise, and afterwards the
registry holds no entry for that base action. -/
theorem spec_c4_ack_timeout_disambiguation (s : SysState) (i : Nat) (p : Inst)
    (hr : Reachable s) (hiq : i ∈ s.queue) (hip : s.insts[i]? = some p)
    (hen : ackEnabled s i = true) :
    settledOf (fireAck s i) i
      = some (some (.failureErr
          (if p.msg.useAuthApp then .authAppNotInstalled else .extensionUnavailable))) ∧
    getPendingMessage (fireAck s i) p.msg.action = none := by
  have hset : p.settled = none := by
    have hs := (inv_reachable hr).2 i hiq
    unfold settledOf at hs
    rw [hip] at hs
    simpa using hs
  exact fireAck_spec s i p hip hset

/-- Witness for C4: the ack timer firing on the pending authenticate
request (no `useAuthApp`) rejects with `ExtensionUnavailableError` and
empties the registry. -/
theorem spec_c4_witness :
    settledOf (fireAck sendAuth 0) 0 = some (some (.failureErr .extensionUnavailable)) ∧
    getPendingMessage (fireAck sendAuth 0) (some Action.AUTHENTICATE) = none := by
  have h := spec_c4_ack_timeout_disambiguation sendAuth 0
    { msg := { action := some Action.AUTHENTICATE }, replyDelay := 30000 }
    (Reachable.step Reachable.init
      (Step.send initState { action := some Action.AUTHENTICATE } 30000 true))
    (by decide) (by decide) (by decide)
  exact h

/-! ### Receive settlement lemmas and the poll-status mapping -/

theorem receive_success_settles (s : SysState) (msg : Message) (a b : String) (i : Nat)
    (p : Inst)
    (hma : msg.action = some a)
    (hsw : startsWithS a "web-eid:" = true)
    (hsf : matchSuffix a = some .successSfx)
    (hinit : getInitialAction a = b)
    (hg : getPendingMessage s (some b) = some i)
    (hip : s.insts[i]? = some p) (hset : p.settled = none) :
    settledOf (receive s msg) i = some (some (.success msg)) := by
  unfold receive
  rw [hma]
  simp only [hsw, Bool.not_true, Bool.false_eq_true, if_false, hsf, hinit, hg]
  unfold settledOf
  rw [rfq_settled, getElem?_updInsts_self, hip]
  simp [resolveCall, hset]

theorem receive_failure_settles (s : SysState) (msg : Message) (a b : String) (i : Nat)
    (p : Inst) (e : WebEidError)
    (hma : msg.action = some a)
    (hme : msg.error = some e)
    (hsw : startsWithS a "web-eid:" = true)
    (hsf : matchSuffix a = some .failureSfx)
    (hinit : getInitialAction a = b)
    (hg : getPendingMessage s (some b) = some i)
    (hip : s.insts[i]? = some p) (hset : p.settled = none) :
    settledOf (receive s msg) i = some (some (.failureErr (deserializeError e))) := by
  unfold receive
  rw [hma]
  simp only [hsw, Bool.not_true, Bool.false_eq_true, if_false, hsf, hinit, hg, hme]
  unfold settledOf
  rw [rfq_settled, getElem?_updInsts_self, hip]
  simp [rejectCall, hset]

/-- C6.  Poll-status mapping via the bus: for a known base action, poll
status 200 synthesizes the `-success` event, every other status the
`-failure` event carrying the mapped error (400, 403, 408, 444, 449 to
`MissingParameterError`, `ServerRejectedError`, `ServerTimeoutError`,
`UserCancelledError`, `UserPinError`, anything else `UnknownError`), a
network failure the `-failure` event with `ServerRejectedError`; and
delivering the synthesized event through `receive` settles the pending
request on the common path — 200 as success with the event message, 449
with `UserPinError`. -/
theorem spec_c6_poll_status_mapping (m : Message) (a : String)
    (hma : m.action = some a)
    (hk : a = Action.AUTHENTICATE ∨ a = Action.SIGN ∨ a = Action.STATUS) :
    ((onPollResponse m (some 200)).action = some (a ++ "-success") ∧
      (onPollResponse m (some 200)).error = none) ∧
    (∀ status : Option Nat, status ≠ some 200 →
      (onPollResponse m status).action = some (a ++ "-failure") ∧
      (onPollResponse m status).error = some (errorForStatus status)) ∧
    (errorForStatus (some 400) = .missingParameter ∧
      errorForStatus (some 403) = .serverRejected ∧
      errorForStatus (some 408) = .serverTimeout ∧
      errorForStatus (some 444) = .userCancelled ∧
      errorForStatus (some 449) = .userPin) ∧
    (∀ status : Option Nat,
      status ∉ ([some 400, some 403, some 408, some 444, some 449] : List (Option Nat)) →
      errorForStatus status = .unknownErr) ∧
    ((onPollNetworkError m).action = some (a ++ "-failure") ∧
      (onPollNetworkError m).error = some .serverRejected) ∧
    (∀ (s : SysState) (i : Nat) (p : Inst),
      getPendingMessage s (some a) = some i →
      s.insts[i]? = some p → p.settled = none →
      settledOf (receive s (onPollResponse m (some 200))) i
        = some (some (.success (onPollResponse m (some 200)))) ∧
      settledOf (receive s (onPollResponse m (some 449))) i
        = some (some (.failureErr .userPin))) := by
  have hdefault : ∀ status : Option Nat,
      status ∉ ([some 400, some 403, some 408, some 444, some 449] : List (Option Nat)) →
      errorForStatus status = .unknownErr := by
    intro status hmem
    simp only [List.mem_cons, List.not_mem_nil, or_false, not_or] at hmem
    obtain ⟨n1, n2, n3, n4, n5⟩ := hmem
    unfold errorForStatus
    rw [beq_eq_false_iff_ne.mpr n1, beq_eq_false_iff_ne.mpr n2, beq_eq_false_iff_ne.mpr n3,
      beq_eq_false_iff_ne.mpr n4, beq_eq_false_iff_ne.mpr n5]
    rfl
  rcases hk with rfl | rfl | rfl
  all_goals {
    have h200 : onPollResponse m (some 200)
        = { action := some (getRelevantSuccessAction m) } := by
      unfold onPollResponse
      rfl
    have hsucc : getRelevantSuccessAction m = m.action.getD "" ++ "-success" := by
      unfold getRelevantSuccessAction
      rw [hma]
      decide
    have herr : getRelevantErrorAction m = m.action.getD "" ++ "-failure" := by
      unfold getRelevantErrorAction
      rw [hma]
      decide
    have hFail : ∀ status : Option Nat, status ≠ some 200 →
        onPollResponse m status
          = { action := some (getRelevantErrorAction m),
              error := some (errorForStatus status) } := by
      intro st hst
      unfold onPollResponse
      rw [beq_eq_false_iff_ne.mpr hst]
      rfl
    refine ⟨⟨?_, ?_⟩, ?_, ⟨rfl, rfl, rfl, rfl, rfl⟩, hdefault, ⟨?_, ?_⟩, ?_⟩
    · rw [h200]
      show some (getRelevantSuccessAction m) = _
      rw [hsucc, hma]
      rfl
    · rw [h200]
    · intro st hst
      rw [hFail st hst]
      constructor
      · show some (getRelevantErrorAction m) = _
        rw [herr, hma]
        rfl
      · rfl
    · show some (getRelevantErrorAction m) = _
      rw [herr, hma]
      rfl
    · rfl
    · intro s i p hg hip hset
      constructor
      · rw [h200, hsucc, hma]
        exact receive_success_settles s _ _ _ i p rfl (by decide) (by decide) (by decide)
          hg hip hset
      · rw [hFail (some 449) (by decide), herr, hma]
        exact receive_failure_settles s _ _ _ i p WebEidError.userPin rfl rfl (by decide)
          (by decide) (by decide) hg hip hset
  }

/-- Witness for C6: against the pending authenticate request, the
synthesized 449 event settles it with `UserPinError` and the
synthesized 200 event settles it as success. -/
theorem spec_c6_witness :
    (onPollResponse { action := some Action.AUTHENTICATE } (some 449)).error
      = some WebEidError.userPin ∧
    settledOf (receive sendAuth
      (onPollResponse { action := some Action.AUTHENTICATE } (some 449))) 0
      = some (some (.failureErr .userPin)) ∧
    settledOf (receive sendAuth
      (onPollResponse { action := some Action.AUTHENTICATE } (some 200))) 0
      = some (some (.success
          (onPollResponse { action := some Action.AUTHENTICATE } (some 200)))) := by
  have h := spec_c6_poll_status_mapping { action := some Action.AUTHENTICATE }
    Action.AUTHENTICATE rfl (Or.inl rfl)
  have hend := h.2.2.2.2.2 sendAuth 0
    { msg := { action := some Action.AUTHENTICATE }, replyDelay := 30000 }
    (by decide) (by decide) (by decide)
  exact ⟨(h.2.1 (some 449) (by decide)).2, hend.2, hend.1⟩

theorem encodedParam_some (name v : String) (hne : v ≠ "") :
    encodedParam name (some v) = "&" ++ name ++ "=\"" ++ encodeURIComponent v ++ "\"" := by
  unfold encodedParam truthyStr
  simp [hne]

theorem verbatimParam_some (name v : String) (hne : v ≠ "") :
    verbatimParam name (some v) = "&" ++ name ++ "=\"" ++ v ++ "\"" := by
  unfold verbatimParam truthyStr
  simp [hne]

theorem natParam_some (name : String) (n : Nat) (hn : n ≠ 0) :
    natParam name (some n) = "&" ++ name ++ "=\"" ++ toString n ++ "\"" := by
  unfold natParam truthyNat
  simp [hn]

theorem headersParam_some (hs : List (String × String)) :
    headersParam (some hs) = "&headers=\"" ++ jsonStringifyHeaders hs ++ "\"" := rfl

set_option maxRecDepth 16384 in
/-- C9 counterexample.  A successfully constructed `IntentUrl` whose
`lang` field is "a&b" yields a deep link carrying `lang` verbatim, not
percent-encoded (`a%26b`), so the claim that every field value is
percent-encoded is false on the code. -/
theorem spec_c9_counterexample :
    mkIntentUrl c9m = .ok c9u ∧
    intentUrlToString c9cfg c9u
      = "https://web-eid.app/authorize?action=\"web-eid:authenticate\"&getAuthChallengeUrl=\"https%3A%2F%2Frp.example%2Fc\"&postAuthTokenUrl=\"https%3A%2F%2Frp.example%2Ft\"&lang=\"a&b\"" ∧
    encodeURIComponent "a&b" = "a%26b" ∧
    intentUrlToString c9cfg c9u
      ≠ "https://web-eid.app/authorize?action=\"web-eid:authenticate\"&getAuthChallengeUrl=\"https%3A%2F%2Frp.example%2Fc\"&postAuthTokenUrl=\"https%3A%2F%2Frp.example%2Ft\"&lang=\""
          ++ encodeURIComponent "a&b" ++ "\"" := by
  refine ⟨rfl, ?_, ?_, ?_⟩
  · decide
  · decide
  · decide

/-- C9 amended.  For every constructed `IntentUrl`, the deep-link string
begins with the configured base followed by the quoted action, and for
each present (truthy) optional field it contains
`&<field>="<value>"` with literal quote characters — where the four URL
fields, `applicationName` and `actionDescription` are percent-encoded,
`headers` is JSON-stringified, and the timeout and `lang` values are
appended verbatim. -/
theorem spec_c9_amended (cfg : Config) (u : IntentUrl) (a : String)
    (hact : u.action = some a) :
    (∃ rest : String, intentUrlToString cfg u
      = cfg.AUTH_APP_INTENT_URL_BASE ++ "?action=\"" ++ a ++ "\"" ++ rest) ∧
    (∀ v : String, u.getAuthChallengeUrl = some v → v ≠ "" →
      ∃ pre suf : String, intentUrlToString cfg u
        = pre ++ "&getAuthChallengeUrl=\"" ++ encodeURIComponent v ++ "\"" ++ suf) ∧
    (∀ v : String, u.postAuthTokenUrl = some v → v ≠ "" →
      ∃ pre suf : String, intentUrlToString cfg u
        = pre ++ "&postAuthTokenUrl=\"" ++ encodeURIComponent v ++ "\"" ++ suf) ∧
    (∀ v : String, u.postPrepareSigningUrl = some v → v ≠ "" →
      ∃ pre suf : String, intentUrlToString cfg u
        = pre ++ "&postPrepareSigningUrl=\"" ++ encodeURIComponent v ++ "\"" ++ suf) ∧
    (∀ v : String, u.postFinalizeSigningUrl = some v → v ≠ "" →
      ∃ pre suf : String, intentUrlToString cfg u
        = pre ++ "&postFinalizeSigningUrl=\"" ++ encodeURIComponent v ++ "\"" ++ suf) ∧
    (∀ v : String, u.applicationName = some v → v ≠ "" →
      ∃ pre suf : String, intentUrlToString cfg u
        = pre ++ "&applicationName=\"" ++ encodeURIComponent v ++ "\"" ++ suf) ∧
    (∀ v : String, u.actionDescription = some v → v ≠ "" →
      ∃ pre suf : String, intentUrlToString cfg u
        = pre ++ "&actionDescription=\"" ++ encodeURIComponent v ++ "\"" ++ suf) ∧
    (∀ hs : List (String × String), u.headers = some hs →
      ∃ pre suf : String, intentUrlToString cfg u
        = pre ++ "&headers=\"" ++ jsonStringifyHeaders hs ++ "\"" ++ suf) ∧
    (∀ n : Nat, u.userInteractionTimeout = some n → n ≠ 0 →
      ∃ pre suf : String, intentUrlToString cfg u
        = pre ++ "&userInteractionTimeout=\"" ++ toString n ++ "\"" ++ suf) ∧
    (∀ n : Nat, u.serverRequestTimeout = some n → n ≠ 0 →
      ∃ pre suf : String, intentUrlToString cfg u
        = pre ++ "&serverRequestTimeout=\"" ++ toString n ++ "\"" ++ suf) ∧
    (∀ v : String, u.lang = some v → v ≠ "" →
      ∃ pre suf : String, intentUrlToString cfg u
        = pre ++ "&lang=\"" ++ v ++ "\"" ++ suf) := by
  refine ⟨?_, ?_, ?_, ?_, ?_, ?_, ?_, ?_, ?_, ?_, ?_⟩
  · refine ⟨encodedParam "getAuthChallengeUrl" u.getAuthChallengeUrl
        ++ encodedParam "postAuthTokenUrl" u.postAuthTokenUrl
        ++ encodedParam "postPrepareSigningUrl" u.postPrepareSigningUrl
        ++ encodedParam "postFinalizeSigningUrl" u.postFinalizeSigningUrl
        ++ encodedParam "applicationName" u.applicationName
        ++ encodedParam "actionDescription" u.actionDescription
        ++ headersParam u.headers
        ++ natParam "userInteractionTimeout" u.userInteractionTimeout
        ++ natParam "serverRequestTimeout" u.serverRequestTimeout
        ++ verbatimParam "lang" u.lang, ?_⟩
    unfold intentUrlToString
    rw [hact]
    simp only [Option.getD_some, String.append_assoc]
  · intro v hv hne
    refine ⟨cfg.AUTH_APP_INTENT_URL_BASE ++ "?action=\"" ++ u.action.getD "null" ++ "\"",
      encodedParam "postAuthTokenUrl" u.postAuthTokenUrl
        ++ encodedParam "postPrepareSigningUrl" u.postPrepareSigningUrl
        ++ encodedParam "postFinalizeSigningUrl" u.postFinalizeSigningUrl
        ++ encodedParam "applicationName" u.applicationName
        ++ encodedParam "actionDescription" u.actionDescription
        ++ headersParam u.headers
        ++ natParam "userInteractionTimeout" u.userInteractionTimeout
        ++ natParam "serverRequestTimeout" u.serverRequestTimeout
        ++ verbatimParam "lang" u.lang, ?_⟩
    unfold intentUrlToString
    rw [hv, encodedParam_some _ _ hne]
    rw [show ("&" ++ "getAuthChallengeUrl" ++ "=\"" : String) = "&getAuthChallengeUrl=\"" by decide]
    simp only [String.append_assoc, String.append_empty]
  · intro v hv hne
    refine ⟨cfg.AUTH_APP_INTENT_URL_BASE ++ "?action=\"" ++ u.action.getD "null" ++ "\""
        ++ encodedParam "getAuthChallengeUrl" u.getAuthChallengeUrl,
      encodedParam "postPrepareSigningUrl" u.postPrepareSigningUrl
        ++ encodedParam "postFinalizeSigningUrl" u.postFinalizeSigningUrl
        ++ encodedParam "applicationName" u.applicationName
        ++ encodedParam "actionDescription" u.actionDescription
        ++ headersParam u.headers
        ++ natParam "userInteractionTimeout" u.userInteractionTimeout
        ++ natParam "serverRequestTimeout" u.serverRequestTimeout
        ++ verbatimParam "lang" u.lang, ?_⟩
    unfold intentUrlToString
    rw [hv, encodedParam_some _ _ hne]
    rw [show ("&" ++ "postAuthTokenUrl" ++ "=\"" : String) = "&postAuthTokenUrl=\"" by decide]
    simp only [String.append_assoc, String.append_empty]
  · intro v hv hne
    refine ⟨cfg.AUTH_APP_INTENT_URL_BASE ++ "?action=\"" ++ u.action.getD "null" ++ "\""
        ++ encodedParam "getAuthChallengeUrl" u.getAuthChallengeUrl
        ++ encodedParam "postAuthTokenUrl" u.postAuthTokenUrl,
      encodedParam "postFinalizeSigningUrl" u.postFinalizeSigningUrl
        ++ encodedParam "applicationName" u.applicationName
        ++ encodedParam "actionDescription" u.actionDescription
        ++ headersParam u.headers
        ++ natParam "userInteractionTimeout" u.userInteractionTimeout
        ++ natParam "serverRequestTimeout" u.serverRequestTimeout
        ++ verbatimParam "lang" u.lang, ?_⟩
    unfold intentUrlToString
    rw [hv, encodedParam_some _ _ hne]
    rw [show ("&" ++ "postPrepareSigningUrl" ++ "=\"" : String) = "&postPrepareSigningUrl=\"" by decide]
    simp only [String.append_assoc, String.append_empty]
  · intro v hv hne
    refine ⟨cfg.AUTH_APP_INTENT_URL_BASE ++ "?action=\"" ++ u.action.getD "null" ++ "\""
        ++ encodedParam "getAuthChallengeUrl" u.getAuthChallengeUrl
        ++ encodedParam "postAuthTokenUrl" u.postAuthTokenUrl
        ++ encodedParam "postPrepareSigningUrl" u.postPrepareSigningUrl,
      encodedParam "applicationName" u.applicationName
        ++ encodedParam "actionDescription" u.actionDescription
        ++ headersParam u.headers
        ++ natParam "userInteractionTimeout" u.userInteractionTimeout
        ++ natParam "serverRequestTimeout" u.serverRequestTimeout
        ++ verbatimParam "lang" u.lang, ?_⟩
    unfold intentUrlToString
    rw [hv, encodedParam_some _ _ hne]
    rw [show ("&" ++ "postFinalizeSigningUrl" ++ "=\"" : String) = "&postFinalizeSigningUrl=\"" by decide]
    simp only [String.append_assoc, String.append_empty]
  · intro v hv hne
    refine ⟨cfg.AUTH_APP_INTENT_URL_BASE ++ "?action=\"" ++ u.action.getD "null" ++ "\""
        ++ encodedParam "getAuthChallengeUrl" u.getAuthChallengeUrl
        ++ encodedParam "postAuthTokenUrl" u.postAuthTokenUrl
        ++ encodedParam "postPrepareSigningUrl" u.postPrepareSigningUrl
        ++ encodedParam "postFinalizeSigningUrl" u.postFinalizeSigningUrl,
      encodedParam "actionDescription" u.actionDescription
        ++ headersParam u.headers
        ++ natParam "userInteractionTimeout" u.userInteractionTimeout
        ++ natParam "serverRequestTimeout" u.serverRequestTimeout
        ++ verbatimParam "lang" u.lang, ?_⟩
    unfold intentUrlToString
    rw [hv, encodedParam_some _ _ hne]
    rw [show ("&" ++ "applicationName" ++ "=\"" : String) = "&applicationName=\"" by decide]
    simp only [String.append_assoc, String.append_empty]
  · intro v hv hne
    refine ⟨cfg.AUTH_APP_INTENT_URL_BASE ++ "?action=\"" ++ u.action.getD "null" ++ "\""
        ++ encodedParam "getAuthChallengeUrl" u.getAuthChallengeUrl
        ++ encodedParam "postAuthTokenUrl" u.postAuthTokenUrl
        ++ encodedParam "postPrepareSigningUrl" u.postPrepareSigningUrl
        ++ encodedParam "postFinalizeSigningUrl" u.postFinalizeSigningUrl
        ++ encodedParam "applicationName" u.applicationName,
      headersParam u.headers
        ++ natParam "userInteractionTimeout" u.userInteractionTimeout
        ++ natParam "serverRequestTimeout" u.serverRequestTimeout
        ++ verbatimParam "lang" u.lang, ?_⟩
    unfold intentUrlToString
    rw [hv, encodedParam_some _ _ hne]
    rw [show ("&" ++ "actionDescription" ++ "=\"" : String) = "&actionDescription=\"" by decide]
    simp only [String.append_assoc, String.append_empty]
  · intro hs hv
    refine ⟨cfg.AUTH_APP_INTENT_URL_BASE ++ "?action=\"" ++ u.action.getD "null" ++ "\""
        ++ encodedParam "getAuthChallengeUrl" u.getAuthChallengeUrl
        ++ encodedParam "postAuthTokenUrl" u.postAuthTokenUrl
        ++ encodedParam "postPrepareSigningUrl" u.postPrepareSigningUrl
        ++ encodedParam "postFinalizeSigningUrl" u.postFinalizeSigningUrl
        ++ encodedParam "applicationName" u.applicationName
        ++ encodedParam "actionDescription" u.actionDescription,
      natParam "userInteractionTimeout" u.userInteractionTimeout
        ++ natParam "serverRequestTimeout" u.serverRequestTimeout
        ++ verbatimParam "lang" u.lang, ?_⟩
    unfold intentUrlToString
    rw [hv, headersParam_some]
    simp only [String.append_assoc, String.append_empty]
  · intro n hv hn
    refine ⟨cfg.AUTH_APP_INTENT_URL_BASE ++ "?action=\"" ++ u.action.getD "null" ++ "\""
        ++ encodedParam "getAuthChallengeUrl" u.getAuthChallengeUrl
        ++ encodedParam "postAuthTokenUrl" u.postAuthTokenUrl
        ++ encodedParam "postPrepareSigningUrl" u.postPrepareSigningUrl
        ++ encodedParam "postFinalizeSigningUrl" u.postFinalizeSigningUrl
        ++ encodedParam "applicationName" u.applicationName
        ++ encodedParam "actionDescription" u.actionDescription
        ++ headersParam u.headers,
      natParam "serverRequestTimeout" u.serverRequestTimeout
        ++ verbatimParam "lang" u.lang, ?_⟩
    unfold intentUrlToString
    rw [hv, natParam_some _ _ hn]
    rw [show ("&" ++ "userInteractionTimeout" ++ "=\"" : String) = "&userInteractionTimeout=\"" by decide]
    simp only [String.append_assoc, String.append_empty]
  · intro n hv hn
    refine ⟨cfg.AUTH_APP_INTENT_URL_BASE ++ "?action=\"" ++ u.action.getD "null" ++ "\""
        ++ encodedParam "getAuthChallengeUrl" u.getAuthChallengeUrl
        ++ encodedParam "postAuthTokenUrl" u.postAuthTokenUrl
        ++ encodedParam "postPrepareSigningUrl" u.postPrepareSigningUrl
        ++ encodedParam "postFinalizeSigningUrl" u.postFinalizeSigningUrl
        ++ encodedParam "applicationName" u.applicationName
        ++ encodedParam "actionDescription" u.actionDescription
        ++ headersParam u.headers
        ++ natParam "userInteractionTimeout" u.userInteractionTimeout,
      verbatimParam "lang" u.lang, ?_⟩
    unfold intentUrlToString
    rw [hv, natParam_some _ _ hn]
    rw [show ("&" ++ "serverRequestTimeout" ++ "=\"" : String) = "&serverRequestTimeout=\"" by decide]
    simp only [String.append_assoc, String.append_empty]
  · intro v hv hne
    refine ⟨cfg.AUTH_APP_INTENT_URL_BASE ++ "?action=\"" ++ u.action.getD "null" ++ "\""
        ++ encodedParam "getAuthChallengeUrl" u.getAuthChallengeUrl
        ++ encodedParam "postAuthTokenUrl" u.postAuthTokenUrl
        ++ encodedParam "postPrepareSigningUrl" u.postPrepareSigningUrl
        ++ encodedParam "postFinalizeSigningUrl" u.postFinalizeSigningUrl
        ++ encodedParam "applicationName" u.applicationName
        ++ encodedParam "actionDescription" u.actionDescription
        ++ headersParam u.headers
        ++ natParam "userInteractionTimeout" u.userInteractionTimeout
        ++ natParam "serverRequestTimeout" u.serverRequestTimeout,
      "", ?_⟩
    unfold intentUrlToString
    rw [hv, verbatimParam_some _ _ hne]
    rw [show ("&" ++ "lang" ++ "=\"" : String) = "&lang=\"" by decide]
    simp only [String.append_assoc, String.append_empty]

/-- Witness for C9 amended at the counterexample deep link: the string
starts with the configured base and quoted action, and carries the lang
value verbatim. -/
theorem spec_c9_witness :
    (∃ rest : String, intentUrlToString c9cfg c9u
      = c9cfg.AUTH_APP_INTENT_URL_BASE ++ "?action=\"" ++ Action.AUTHENTICATE ++ "\"" ++ rest) ∧
    (∃ pre suf : String, intentUrlToString c9cfg c9u
      = pre ++ "&lang=\"" ++ "a&b" ++ "\"" ++ suf) := by
  have h := spec_c9_amended c9cfg c9u Action.AUTHENTICATE (by decide)
  exact ⟨h.1, h.2.2.2.2.2.2.2.2.2.2 "a&b" (by decide) (by decide)⟩

end WebEid
